import Mathlib

/-!
Verification development for the mixed-criticality multiprocessor schedulability
simulator (EDF-VD scheduling combined with the Stack Resource Policy).

This file is a shallow embedding of the simulation engine:
- src/models/simulator.py           (class Simulator)
- src/models/high_criticality_task.py (class HighCriticalityTask)
- src/models/low_criticality_task.py  (class LowCriticalityTask)

Parts of the repository referenced by that code but not present under src/
(the BaseTask capability contract, the Core record, the Mode enum, and the
PanicModeException class) are modelled from the specification; each such
definition carries a doc comment starting with "Modelled from the spec:".

Numeric conventions: Python integers become Nat/Int; tick counters are Nat.
The admission arithmetic of Simulator._assign_to_core is exact in the source
(Python Fraction) and is embedded faithfully as an explicit fraction type
with cross-multiplication comparisons.  The utilization sums of
Simulator._get_edf_vd_x, by contrast, are computed with IEEE-754 doubles in
the source; this file idealises them as exact rationals.  That idealisation
coincides with the source whenever every intermediate value is a dyadic
rational exactly representable in binary64 — which holds in every concrete
scenario appearing below (empty sums, 3/4, 2/1, 1/2) — but can differ where
float rounding matters (for instance, ten tasks of utilization 1/10 sum to
exactly 1 as rationals yet to slightly below 1 as doubles).  Properties of
the program that hinge on IEEE-754 rounding are therefore outside the scope
of this embedding and are not asserted by any theorem in this file.
-/

namespace MCS

/-- Exact fraction arithmetic used for all utilization/capacity admission
tests (Python's Fraction comparisons in Simulator._assign_to_core and the
rational arithmetic of Simulator._get_edf_vd_x).  The denominator is kept
positive by every operation below, so comparison by cross-multiplication
agrees with the mathematical ordering of the represented rationals. -/
structure Frac where
  num : ℤ
  den : ℤ
deriving DecidableEq, Repr

/-- The fraction n / 1. -/
def Frac.ofInt (n : ℤ) : Frac := ⟨n, 1⟩

/-- Addition of fractions: a/b + c/d = (a*d + c*b)/(b*d). -/
def Frac.add (a b : Frac) : Frac := ⟨a.num * b.den + b.num * a.den, a.den * b.den⟩

/-- Subtraction of fractions: a/b - c/d = (a*d - c*b)/(b*d). -/
def Frac.sub (a b : Frac) : Frac := ⟨a.num * b.den - b.num * a.den, a.den * b.den⟩

/-- Division of fractions, normalising the sign into the numerator so that the
denominator stays positive.  Division by a fraction whose numerator is 0
produces denominator 0; callers guard against it exactly where the Python
source would raise ZeroDivisionError. -/
def Frac.div (a b : Frac) : Frac :=
  if b.num < 0 then ⟨-(a.num * b.den), a.den * (-b.num)⟩ else ⟨a.num * b.den, a.den * b.num⟩

/-- Multiplication of a fraction by a natural number. -/
def Frac.mul_nat (a : Frac) (p : ℕ) : Frac := ⟨a.num * p, a.den⟩

/-- Comparison a/b <= c/d by cross-multiplication (valid for positive
denominators); the exact-rational admission comparison of the assignment
step. -/
def Frac.leb (a b : Frac) : Bool := decide (a.num * b.den ≤ b.num * a.den)

/-- Semantic equality of fractions by cross-multiplication. -/
def Frac.eqb (a b : Frac) : Bool := decide (a.num * b.den = b.num * a.den)

/-- Ceiling of a fraction with positive denominator (models math.ceil). -/
def Frac.fceil (a : Frac) : ℤ := (a.num + a.den - 1).ediv a.den

/-- Rounding to 4 decimal places, an exact-rational idealisation of Python's
round(x, 4) on the computed scaling factor: floor(x * 10^4 + 1/2) / 10^4.
The source's round acts on an IEEE-754 double and returns the double nearest
to the half-even decimal rounding of that double; the two agree whenever the
argument and result are exactly representable dyadic rationals, as in every
concrete scenario in this file, and no theorem below depends on an input
where they differ. -/
def Frac.round4 (a : Frac) : Frac := ⟨(2 * a.num * 10000 + a.den).ediv (2 * a.den), 10000⟩

/-- Modelled from the spec: the process-wide two-state mode variable
(configs.Mode, not under src/): NORMAL or OVERRUN. -/
inductive Mode
  | NORMAL
  | OVERRUN
deriving DecidableEq, Repr

/-- Criticality-specific task data: a high-criticality task carries the
normal-mode (little) and overrun-mode (big) computation demands and its
virtual deadline (src/models/high_criticality_task.py); a low-criticality
task carries one fixed computation time (src/models/low_criticality_task.py). -/
inductive TaskKind
  | high (little_computation_time big_computation_time : ℕ) (virtual_deadline : ℤ)
  | low (computation_time : ℕ)
deriving Repr

/-- Modelled from the spec: the shared task record (BaseTask, not under src/):
period, exact utilization, resource demands (a total map from resource index
to unit count, Python's resource_demands mapping read with defaultdict-0
semantics), current job index and accumulated progress, plus the
criticality-specific data. -/
structure Task where
  period : ℕ
  utilization : Frac
  resource_demands : ℕ → ℕ
  current_job : ℕ
  progress : ℕ
  kind : TaskKind

/-- True exactly on high-criticality tasks (models Python's
isinstance(task, HighCriticalityTask) checks). -/
def Task.is_high (t : Task) : Bool :=
  match t.kind with
  | .high _ _ _ => true
  | .low _ => false

/-- The little computation time of a high-criticality task (0 on a
low-criticality task, on which the source never reads it). -/
def Task.little_computation_time (t : Task) : ℕ :=
  match t.kind with
  | .high l _ _ => l
  | .low _ => 0

/-- The fixed computation time of a low-criticality task (0 on a
high-criticality task, on which the source never reads it). -/
def Task.computation_time (t : Task) : ℕ :=
  match t.kind with
  | .high _ _ _ => 0
  | .low c => c

/-- The virtual deadline of a high-criticality task (0 on a low-criticality
task, on which the source never reads it). -/
def Task.virtual_deadline (t : Task) : ℤ :=
  match t.kind with
  | .high _ _ v => v
  | .low _ => 0

/-- HighCriticalityTask.get_computation_time and
LowCriticalityTask.get_computation_time (src): little under NORMAL, big under
OVERRUN for high-criticality; the fixed computation time, mode-independent,
for low-criticality. -/
def Task.get_computation_time (t : Task) (m : Mode) : ℕ :=
  match t.kind with
  | .high l b _ =>
    match m with
    | .NORMAL => l
    | .OVERRUN => b
  | .low c => c

/-- HighCriticalityTask.get_deadline and LowCriticalityTask.get_deadline
(src): the absolute deadline current_job*period + (period-relative offset).
For low-criticality the offset is always the period.  For high-criticality
the offset under NORMAL is self.deadline — a BaseTask field not under src/,
modelled from the spec as the full period (the "real" deadline) — and under
OVERRUN it is the virtual deadline. -/
def Task.get_deadline (t : Task) (m : Mode) : ℤ :=
  match t.kind with
  | .high _ _ v =>
    match m with
    | .NORMAL => (t.current_job : ℤ) * t.period + t.period
    | .OVERRUN => (t.current_job : ℤ) * t.period + v
  | .low _ => (t.current_job : ℤ) * t.period + t.period

/-- Modelled from the spec: BaseTask.is_finished (not under src/): the current
job is finished when progress has reached the mode's computation demand. -/
def Task.is_finished (t : Task) (m : Mode) : Bool :=
  decide (t.get_computation_time m ≤ t.progress)

/-- Modelled from the spec: BaseTask.is_active (not under src/): true once the
current job has been released (current_job * period ≤ now) and is not yet
finished; "finished" is read under NORMAL accounting, matching the spec's
description of the mode-update scan. -/
def Task.is_active (t : Task) (now : ℕ) : Bool :=
  decide (t.current_job * t.period ≤ now) && !t.is_finished .NORMAL

/-- Modelled from the spec: BaseTask.is_deadline_missed (not under src/): true
when now has reached the mode's absolute deadline while the job is not
finished. -/
def Task.is_deadline_missed (t : Task) (m : Mode) (now : ℕ) : Bool :=
  decide (t.get_deadline m ≤ (now : ℤ)) && !t.is_finished m

/-- Modelled from the spec: BaseTask.advanced_forward_job (not under src/):
increment the job index and reset progress.  Demands, period, utilization and
kind are untouched. -/
def Task.advanced_forward_job (t : Task) : Task :=
  { t with current_job := t.current_job + 1, progress := 0 }

/-- Modelled from the spec: BaseTask.calculate (not under src/), the per-tick
execution advance: one tick of progress. -/
def Task.calculate (t : Task) : Task :=
  { t with progress := t.progress + 1 }

/-- Modelled from the spec: BaseTask.get_utilization (not under src/): the
task's immutable exact utilization. -/
def Task.get_utilization (t : Task) : Frac := t.utilization

/-- Modelled from the spec: the Core record (models/core.py, not under src/):
statically assigned task set (task indices into the task store), total
capacity budget, worst-fit demand accumulated during assignment, per-resource
congestion tally, busy-waiting flag — plus the simulator's
currently_assigned_tasks entry for this core (the Python dict keyed by core
is folded into the core record; dict insertion order = list order). -/
structure Core where
  task_set : List ℕ
  utilization : Frac
  wfd : Frac
  resource_congestion : ℕ → ℕ
  is_busy_waiting : Bool
  assigned : Option ℕ

/-- The whole simulator state: Simulator.__init__'s fields.  Tasks live in a
single store indexed by task id so that job/progress mutations are shared
between the task lists, the cores' task sets and the dispatch table, exactly
as Python object aliasing does; high_criticality_tasks and
low_criticality_tasks are the id lists.  resources is the list of resource
capacities (resource identity = list index).  system_ceiling is an integer
preemption level or none for math.inf. -/
structure SimState where
  mode : Mode
  store : List Task
  high_criticality_tasks : List ℕ
  low_criticality_tasks : List ℕ
  resources : List ℕ
  cores : List Core
  current_time : ℕ
  cpu_count : ℕ
  edf_vd_x : Frac
  srp_table : List (List ℕ)
  system_ceiling : Option ℤ

/-- Stable insertion of x into a list under the boolean relation le (le must
hold on ties for stability, as with Python's sorted). -/
def insort_by (le : α → α → Bool) (x : α) : List α → List α
  | [] => [x]
  | y :: ys => if le x y then x :: y :: ys else y :: insort_by le x ys

/-- Stable sort under the boolean relation le; models Python's stable sorted
(ascending when le is key-≤, descending when le is key-≥, matching
reverse=True which preserves the order of equal keys). -/
def sort_by (le : α → α → Bool) : List α → List α
  | [] => []
  | y :: ys => insort_by le y (sort_by le ys)

/-- Minimum of a list of preemption levels, none for math.inf on the empty
list (models min([...] + [math.inf]) in Simulator._update_system_ceiling). -/
def ceil_min : List ℤ → Option ℤ
  | [] => none
  | x :: xs =>
    match ceil_min xs with
    | none => some x
    | some y => some (min x y)

/-- Comparison preemption-level < system-ceiling, where none is math.inf
(everything is below it) and the busy-wait sentinel -1 is below every level. -/
def lt_ceiling (x : ℤ) : Option ℤ → Bool
  | none => true
  | some y => decide (x < y)

/-- The preemption-level interface: Simulator code calls
task.get_preemption_level(self.srp_table), a BaseTask method not under src/.
All general theorems below are parametric in it. -/
abbrev PLevel := List (List ℕ) → Task → ℤ

/-- Modelled from the spec: BaseTask.get_preemption_level (not under src/).
The spec requires only a comparable value derived from the SRP table and the
task's resource demands in which lower (shorter-period) values indicate
higher urgency; it is modelled as the minimum SRP entry at occupancy 0 over
the resources the task demands, defaulting to the task's period when it
demands none.  Used only to instantiate the parametric theorems at concrete
witnesses. -/
def spec_preemption_level : PLevel := fun srp t =>
  (srp.enum.filterMap fun p =>
    if 0 < t.resource_demands p.1 then ((p.2.headD 0 : ℕ) : ℤ) else none).foldr min (t.period : ℤ)

/-- Python max() over the task periods: ValueError (none) on an empty task
list — the unguarded max([item.period for item in total_tasks]) of
Simulator._generate_srp_table. -/
def max_period : List Task → Option ℕ
  | [] => none
  | t :: ts =>
    match max_period ts with
    | none => some t.period
    | some m => some (max t.period m)

/-- One SRP table entry (Simulator._generate_srp_table): the minimum of the
periods of the tasks whose demand for resource r strictly exceeds occupancy
level i, together with the maximum period mp:
min([task.period for task in total_tasks if task.resource_demands[resource] > i] + [max_period]). -/
def srp_entry (tasks : List Task) (r i mp : ℕ) : ℕ :=
  ((tasks.filter fun t => decide (i < t.resource_demands r)).map Task.period).foldr min mp

/-- Simulator._generate_srp_table: for every resource (by index) the entries
at occupancy levels 0..capacity.  none models the ValueError raised by
max() on an empty total task list. -/
def generate_srp_table (tasks : List Task) (caps : List ℕ) : Option (List (List ℕ)) :=
  match max_period tasks with
  | none => none
  | some mp => some (caps.enum.map fun p => (List.range (p.2 + 1)).map fun i => srp_entry tasks p.1 i mp)

/-- Sum over the low-criticality tasks of computation_time / period
(u_lo_lo in Simulator._get_edf_vd_x), idealised as an exact fraction.  The
source accumulates IEEE-754 doubles; the idealisation agrees with it exactly
when every quotient and partial sum is a representable dyadic rational (true
of every concrete scenario in this file) and can differ otherwise — see the
numeric conventions at the top of this file. -/
def u_lo_lo : List Task → Frac
  | [] => Frac.ofInt 0
  | t :: ts => Frac.add (u_lo_lo ts) ⟨t.computation_time, t.period⟩

/-- Sum over the high-criticality tasks of little_computation_time / period
(u_lo_hi in Simulator._get_edf_vd_x), idealised as an exact fraction, with
the same float-versus-exact caveat as u_lo_lo. -/
def u_lo_hi : List Task → Frac
  | [] => Frac.ofInt 0
  | t :: ts => Frac.add (u_lo_hi ts) ⟨t.little_computation_time, t.period⟩

/-- Simulator._get_edf_vd_x: round(u_lo_hi / (1 - u_lo_lo), 4), with the
division unguarded in the source; none models the ZeroDivisionError raised
when the denominator is zero.  Under this file's exact-rational idealisation
the denominator is zero iff the exact low-criticality utilization sum equals
1; in the source the test is on a float denominator, which coincides with
the exact one only when the sums are exactly representable (as in every
concrete scenario in this file).  Float-rounding-dependent behaviour of this
function is not asserted by any theorem below. -/
def get_edf_vd_x (hcs lcs : List Task) : Option Frac :=
  let d := Frac.sub (Frac.ofInt 1) (u_lo_lo lcs)
  if d.num = 0 then none
  else some (Frac.round4 (Frac.div (u_lo_hi hcs) d))

/-- Write the virtual deadline of a high-criticality task (a no-op on the
kind payload of a low-criticality task, which has no such attribute the
source ever reads). -/
def set_virtual_deadline (t : Task) (v : ℤ) : Task :=
  { t with kind :=
      match t.kind with
      | .high l b _ => .high l b v
      | .low c => .low c }

/-- Simulator._update_high_critical_tasks applied at construction: each
high-criticality task's virtual_deadline := ceil(edf_vd_x * period).  The
source ceils an IEEE-754 double product; here the product is exact, which
agrees with the source when edf_vd_x and the product are representable
dyadic rationals (as in every concrete scenario in this file) and can differ
otherwise. -/
def update_high_critical_tasks (x : Frac) (hcs : List Task) : List Task :=
  hcs.map fun t => set_virtual_deadline t (Frac.fceil (x.mul_nat t.period))

/-- Construction failures of Simulator.__init__: ZeroDivisionError from the
unguarded division of _get_edf_vd_x, or ValueError from max() over an empty
task list in _generate_srp_table. -/
inductive InitError
  | zero_division
  | value_error_empty_max
deriving DecidableEq, Repr

/-- Simulator.__init__: mode NORMAL, compute edf_vd_x (may raise), set
virtual deadlines, empty dispatch table ({core: None for core in cores}),
build the SRP table (may raise on an empty task list), system ceiling
math.inf, clock 0. -/
def mk_simulator (hcs lcs : List Task) (caps : List ℕ) (cores0 : List Core) :
    Except InitError SimState :=
  match get_edf_vd_x hcs lcs with
  | none => .error .zero_division
  | some x =>
    let hcs' := update_high_critical_tasks x hcs
    match generate_srp_table (hcs' ++ lcs) caps with
    | none => .error .value_error_empty_max
    | some table =>
      .ok { mode := .NORMAL
            store := hcs' ++ lcs
            high_criticality_tasks := List.range hcs.length
            low_criticality_tasks := (List.range lcs.length).map (hcs.length + ·)
            resources := caps
            cores := cores0.map fun c => { c with assigned := none }
            current_time := 0
            cpu_count := cores0.length
            edf_vd_x := x
            srp_table := table
            system_ceiling := none }

/-- A fallback core for positional lookups with a default. -/
def default_core : Core :=
  { task_set := [], utilization := Frac.ofInt 0, wfd := Frac.ofInt 0,
    resource_congestion := fun _ => 0, is_busy_waiting := false, assigned := none }

/-- The resource demand of the task (if any) referenced by a dispatch-table
entry. -/
def task_demand (store : List Task) (a : Option ℕ) (r : ℕ) : ℕ :=
  match a.bind store.get? with
  | some t => t.resource_demands r
  | none => 0

/-- Sum of the demands for resource r of the tasks held by the cores other
than the core at index target (i is the index of the head of the remaining
list); the total_usage tally of Simulator._resources_are_available, which
skips only the target core and cores with no dispatched task. -/
def held_usage_except (store : List Task) (target r : ℕ) : ℕ → List Core → ℕ
  | _, [] => 0
  | i, c :: cs =>
    (if i = target then 0 else task_demand store c.assigned r) + held_usage_except store target r (i + 1) cs

/-- Simulator._resources_are_available: a falsy (absent) candidate is always
available; otherwise every resource must satisfy
total_usage[resource] + candidate demand <= capacity, where total_usage sums
over all other cores' currently dispatched tasks (busy-waiting or not). -/
def resources_are_available (store : List Task) (caps : List ℕ) (cores : List Core)
    (a : Option ℕ) (target : ℕ) : Bool :=
  match a.bind store.get? with
  | none => true
  | some t =>
    (List.range caps.length).all fun r =>
      decide (held_usage_except store target r 0 cores + t.resource_demands r ≤ caps.getD r 0)

/-- Simulator._update_system_ceiling: the minimum preemption level over all
currently dispatched tasks (math.inf when none), overridden by the sentinel
-1 whenever any core is busy-waiting. -/
def update_system_ceiling (plevel : PLevel) (s : SimState) : SimState :=
  let levels := s.cores.filterMap fun c =>
    (c.assigned.bind s.store.get?).map fun t => plevel s.srp_table t
  { s with system_ceiling :=
      if s.cores.any Core.is_busy_waiting then some (-1) else ceil_min levels }

/-- Simulator._update_mode: OVERRUN exactly when some high-criticality task is
active and its (period-relative) virtual_deadline has been reached by the
clock — the source compares task.virtual_deadline directly with
self.current_time; otherwise NORMAL.  Recomputed fresh, ignoring the previous
mode. -/
def update_mode (s : SimState) : SimState :=
  { s with mode :=
      if s.high_criticality_tasks.any fun tid =>
        match s.store.get? tid with
        | some t => t.is_active s.current_time && decide (t.virtual_deadline ≤ (s.current_time : ℤ))
        | none => false
      then .OVERRUN else .NORMAL }

/-- One core's step of Simulator._handle_done_tasks: a finished dispatched
task advances its job and frees the core; a missed dispatched task raises
PanicModeException if high-criticality, else frees the core and advances the
job. -/
def handle_done_step (m : Mode) (now : ℕ) (store : List Task) (c : Core) :
    Except Unit (List Task × Core) :=
  match c.assigned with
  | none => .ok (store, c)
  | some tid =>
    match store.get? tid with
    | none => .ok (store, c)
    | some t =>
      if t.is_finished m then
        .ok (store.set tid t.advanced_forward_job, { c with assigned := none })
      else if t.is_deadline_missed m now then
        if t.is_high then .error ()
        else .ok (store.set tid t.advanced_forward_job, { c with assigned := none })
      else .ok (store, c)

/-- Simulator._handle_done_tasks over the cores in dict (list) order,
threading the task store through the per-core job mutations. -/
def handle_done_fold (m : Mode) (now : ℕ) :
    List Task → List Core → Except Unit (List Task × List Core)
  | store, [] => .ok (store, [])
  | store, c :: cs =>
    match handle_done_step m now store c with
    | .error e => .error e
    | .ok (store1, c1) =>
      match handle_done_fold m now store1 cs with
      | .error e => .error e
      | .ok (store2, cs2) => .ok (store2, c1 :: cs2)

/-- Simulator._handle_done_tasks on the simulator state. -/
def handle_done_tasks (s : SimState) : Except Unit SimState :=
  match handle_done_fold s.mode s.current_time s.store s.cores with
  | .error e => .error e
  | .ok (store1, cores1) => .ok { s with store := store1, cores := cores1 }

/-- Simulator._disable_low_critical_tasks_in_overrun: under OVERRUN every
dispatched low-criticality task is evicted (entry set to None); busy flags
and job indices untouched. -/
def disable_low_critical_tasks_in_overrun (s : SimState) : SimState :=
  match s.mode with
  | .NORMAL => s
  | .OVERRUN =>
    { s with cores := s.cores.map fun c =>
        match c.assigned.bind s.store.get? with
        | some t => if t.is_high then c else { c with assigned := none }
        | none => c }

/-- Simulator._get_tasks_by_deadline_ordering: the core's active
high-criticality queue and (under NORMAL only) active low-criticality queue,
concatenated and stably sorted by ascending absolute deadline under the
current mode. -/
def get_tasks_by_deadline_ordering (m : Mode) (now : ℕ) (store : List Task) (c : Core) :
    List ℕ :=
  let hq := c.task_set.filter fun tid =>
    match store.get? tid with
    | some t => t.is_high && t.is_active now
    | none => false
  let lq := c.task_set.filter fun tid =>
    match store.get? tid with
    | some t => !t.is_high && t.is_active now
    | none => false
  let key : ℕ → ℤ := fun tid =>
    match store.get? tid with
    | some t => t.get_deadline m
    | none => 0
  match m with
  | .NORMAL => sort_by (fun a b => decide (key a ≤ key b)) (hq ++ lq)
  | .OVERRUN => sort_by (fun a b => decide (key a ≤ key b)) hq

/-- The filtered candidate queue of Simulator._scheduled_tasks: the
deadline-ordered queue restricted to tasks whose preemption level is strictly
below the system ceiling. -/
def dispatch_queue (plevel : PLevel) (srp : List (List ℕ)) (ceiling : Option ℤ)
    (m : Mode) (now : ℕ) (store : List Task) (c : Core) : List ℕ :=
  (get_tasks_by_deadline_ordering m now store c).filter fun tid =>
    match store.get? tid with
    | some t => lt_ceiling (plevel srp t) ceiling
    | none => false

/-- One core's step of Simulator._scheduled_tasks: a busy-waiting core is
skipped; otherwise, if the filtered queue is non-empty, its head is written
into the dispatch table and the resource check — evaluated against the
current table, in which cores earlier in the iteration have already been
updated this tick — decides between run() and busy_wait(). -/
def scheduled_step (plevel : PLevel) (store : List Task) (caps : List ℕ)
    (srp : List (List ℕ)) (ceiling : Option ℤ) (m : Mode) (now : ℕ)
    (cores : List Core) (i : ℕ) : List Core :=
  match cores.get? i with
  | none => cores
  | some c =>
    if c.is_busy_waiting then cores
    else
      match dispatch_queue plevel srp ceiling m now store c with
      | [] => cores
      | tid :: _ =>
        let cores1 := cores.set i { c with assigned := some tid }
        if resources_are_available store caps cores1 (some tid) i then
          cores1.set i { c with assigned := some tid, is_busy_waiting := false }
        else
          cores1.set i { c with assigned := some tid, is_busy_waiting := true }

/-- Simulator._scheduled_tasks: the dispatch step over the cores in dict
(list) order. -/
def scheduled_tasks (plevel : PLevel) (s : SimState) : SimState :=
  let step := scheduled_step plevel s.store s.resources s.srp_table s.system_ceiling s.mode s.current_time
  { s with cores := (List.range s.cores.length).foldl step s.cores }

/-- One core's step of Simulator._update_busy_waiting_cores: a busy-waiting
core re-checks resource availability for its held task and transitions to
running when it now passes. -/
def update_busy_step (store : List Task) (caps : List ℕ) (cores : List Core) (i : ℕ) :
    List Core :=
  match cores.get? i with
  | none => cores
  | some c =>
    if c.is_busy_waiting then
      if resources_are_available store caps cores c.assigned i then
        cores.set i { c with is_busy_waiting := false }
      else cores
    else cores

/-- Simulator._update_busy_waiting_cores over the cores in dict (list)
order. -/
def update_busy_waiting_cores (s : SimState) : SimState :=
  let step := update_busy_step s.store s.resources
  { s with cores := (List.range s.cores.length).foldl step s.cores }

/-- One core's step of Simulator._advance_forward_tasks: a running core's
dispatched task gains one tick of progress. -/
def advance_one (store : List Task) (c : Core) : List Task :=
  if c.is_busy_waiting then store
  else
    match c.assigned with
    | none => store
    | some tid =>
      match store.get? tid with
      | none => store
      | some t => store.set tid t.calculate

/-- Simulator._advance_forward_tasks over the cores in dict (list) order. -/
def advance_fold : List Task → List Core → List Task
  | store, [] => store
  | store, c :: cs => advance_fold (advance_one store c) cs

/-- Simulator._advance_forward_tasks on the simulator state. -/
def advance_forward_tasks (s : SimState) : SimState :=
  { s with store := advance_fold s.store s.cores }

/-- The per-tick utilization tally of Simulator.execute: the number of
non-busy-waiting cores whose dispatch-table entry is not None at the end of
the tick. -/
def usage_delta (s : SimState) : ℕ :=
  (s.cores.filter fun c => !c.is_busy_waiting && c.assigned.isSome).length

/-- One iteration of the while-loop body of Simulator.execute, in its strict
phase order; .error models the PanicModeException raised on a
high-criticality deadline miss. -/
def tick (plevel : PLevel) (s : SimState) : Except Unit SimState :=
  let s1 := update_system_ceiling plevel s
  let s2 := update_mode s1
  match handle_done_tasks s2 with
  | .error e => .error e
  | .ok s3 =>
    let s4 := disable_low_critical_tasks_in_overrun s3
    let s5 := scheduled_tasks plevel s4
    let s6 := update_busy_waiting_cores s5
    let s7 := advance_forward_tasks s6
    .ok { s7 with current_time := s7.current_time + 1 }

/-- Iterating the tick n times (or stopping at the first panic): the
reachable states of the simulation loop. -/
def iterate_ticks (plevel : PLevel) : ℕ → SimState → Except Unit SimState
  | 0, s => .ok s
  | n + 1, s =>
    match tick plevel s with
    | .error e => .error e
    | .ok s' => iterate_ticks plevel n s'

/-- Outcome of the simulation loop: the horizon was reached, or a
high-criticality miss terminated it after `time` completed ticks with `usage`
core-ticks accumulated. -/
inductive RunOutcome
  | horizon (usage time : ℕ)
  | panic (usage time : ℕ)
deriving DecidableEq, Repr

/-- The while-loop of Simulator.execute: run ticks while current_time < 10^5,
accumulating the per-tick core-usage tally; a panic stops the loop with the
usage and clock accumulated so far (the exception fires before the clock
increment and the tick's tally). -/
def run_loop (plevel : PLevel) : ℕ → SimState → ℕ → RunOutcome
  | 0, s, usage => .horizon usage s.current_time
  | fuel + 1, s, usage =>
    if s.current_time < 100000 then
      match tick plevel s with
      | .error _ => .panic usage s.current_time
      | .ok s' => run_loop plevel fuel s' (usage + usage_delta s')
    else .horizon usage s.current_time

/-- Simulator._calculate_congestion: the sum, over the resources the task
demands with positive quantity, of the core's congestion tally for that
resource. -/
def calculate_congestion (nres : ℕ) (c : Core) (t : Task) : ℕ :=
  (((List.range nres).filter fun r => decide (0 < t.resource_demands r)).map
    c.resource_congestion).foldr (· + ·) 0

/-- Modelled from the spec: Core.add_task (models/core.py, not under src/):
bind the task to the core, updating the core's wfd (cumulative utilization of
bound tasks) and per-resource congestion tally. -/
def add_task (c : Core) (tid : ℕ) (t : Task) : Core :=
  { c with task_set := c.task_set ++ [tid],
           wfd := c.wfd.add t.get_utilization,
           resource_congestion := fun r => c.resource_congestion r + t.resource_demands r }

/-- One task's step of Simulator._assign_to_core: rank core indices by
descending congestion (stable, matching sorted(..., reverse=True)), filter by
the exact-rational spare-capacity test
Fraction(utilization) <= Fraction(core.utilization - core.wfd), and bind the
task to the first eligible core; none models the IndexError raised by
usable_cores[0] on an empty eligible list. -/
def assign_one (nres : ℕ) (cores : List Core) (tid : ℕ) (t : Task) : Option (List Core) :=
  let cong := fun i => calculate_congestion nres (cores.getD i default_core) t
  let usable := sort_by (fun i j => decide (cong j ≤ cong i)) (List.range cores.length)
  let eligible := usable.filter fun i =>
    Frac.leb t.get_utilization ((cores.getD i default_core).utilization.sub (cores.getD i default_core).wfd)
  match eligible.head? with
  | none => none
  | some i =>
    match cores.get? i with
    | none => none
    | some c => some (cores.set i (add_task c tid t))

/-- Simulator._assign_to_core over all tasks, high-criticality first then
low-criticality, in list order. -/
def assign_fold (nres : ℕ) (store : List Task) : List ℕ → List Core → Option (List Core)
  | [], cores => some cores
  | tid :: tids, cores =>
    match store.get? tid with
    | none => assign_fold nres store tids cores
    | some t =>
      match assign_one nres cores tid t with
      | none => none
      | some cores1 => assign_fold nres store tids cores1

/-- Simulator._assign_to_core on the simulator state. -/
def assign_to_core (s : SimState) : Option SimState :=
  (assign_fold s.resources.length s.store
      (s.high_criticality_tasks ++ s.low_criticality_tasks) s.cores).map
    fun cs => { s with cores := cs }

/-- Simulator.execute.  The one-time core assignment runs before (and outside)
the try/except of the source, so its IndexError escapes the run uncaught:
modelled as none.  Modelled from the spec for the loop's failure path:
PanicModeException (models/exceptions.py, not under src/) is treated as
caught by the run's except clause, so a high-criticality miss returns the
explicit failure pair, per the spec's error-propagation policy.  The final
division total_usage / (current_time * cpu_count) is unguarded in the source;
a zero divisor (ZeroDivisionError) is likewise modelled as none. -/
def execute (plevel : PLevel) (s : SimState) : Option (Frac × Bool) :=
  match assign_to_core s with
  | none => none
  | some s1 =>
    match run_loop plevel 100000 s1 0 with
    | .horizon usage t =>
      if t * s.cpu_count = 0 then none
      else some (⟨(usage : ℤ), ((t * s.cpu_count : ℕ) : ℤ)⟩, false)
    | .panic usage t =>
      if t * s.cpu_count = 0 then none
      else some (⟨(usage : ℤ), ((t * s.cpu_count : ℕ) : ℤ)⟩, true)

/-- Construct the simulator and run it: the whole program run, construction
errors surfaced separately from run-time crashes. -/
def exec_run (plevel : PLevel) (hcs lcs : List Task) (caps : List ℕ) (cores0 : List Core) :
    Except InitError (Option (Frac × Bool)) :=
  (mk_simulator hcs lcs caps cores0).map (execute plevel)

/-! Concrete scenario inputs used by the witness and counterexample theorems. -/

/-- A single unconstrained core with capacity budget 1. -/
def unit_core : Core :=
  { task_set := [], utilization := ⟨1, 1⟩, wfd := ⟨0, 1⟩,
    resource_congestion := fun _ => 0, is_busy_waiting := false, assigned := none }

/-- A low-criticality task of utilization 3/4 (computation 3, period 4). -/
def c2_task : Task :=
  { period := 4, utilization := ⟨3, 4⟩, resource_demands := fun _ => 0,
    current_job := 0, progress := 0, kind := .low 3 }

/-- A core whose capacity budget 1/2 cannot accommodate c2_task. -/
def c2_core : Core :=
  { task_set := [], utilization := ⟨1, 2⟩, wfd := ⟨0, 1⟩,
    resource_congestion := fun _ => 0, is_busy_waiting := false, assigned := none }

/-! C6. -/

/-- C6: the claim asserts that the input with zero tasks, zero resources and
one core completes at the horizon with utilization 0 and failed = false.  The
constructor instead raises ValueError — max() over the empty period list in
Simulator._generate_srp_table, which is computed unconditionally before the
per-resource loop — so no run happens at all.  This theorem evaluates the
construction at exactly the claim's input. -/
theorem c6_zero_tasks_constructor_value_error :
    mk_simulator [] [] [] [unit_core] = .error .value_error_empty_max := rfl

/-! C2. -/

/-- C2: with one task of utilization 3/4 and one core of spare capacity 1/2,
no core is eligible during one-time binding.  The claim asserts the run is
then reported as a failure with no crash; but Simulator.execute calls
_assign_to_core() outside its try/except, so the IndexError raised by
usable_cores[0] on the empty eligible list escapes the run uncaught
(modelled by the none outcome).  This theorem evaluates the whole run at
that input. -/
theorem c2_infeasible_assignment_uncaught :
    exec_run spec_preemption_level [] [c2_task] [] [c2_core] = .ok none := rfl

/-! C7. -/

/-- C7: for every high-criticality task, deadline(mode) is
current_job*period plus the full-period (real) deadline offset under NORMAL
and plus the virtual_deadline offset under OVERRUN — the observed mapping of
HighCriticalityTask.get_deadline, not its textbook inverse. -/
theorem c7_high_deadline_mode_mapping (t : Task) (l b : ℕ) (v : ℤ)
    (h : t.kind = .high l b v) :
    t.get_deadline .NORMAL = (t.current_job : ℤ) * t.period + t.period ∧
    t.get_deadline .OVERRUN = (t.current_job : ℤ) * t.period + v := by
  simp [Task.get_deadline, h]

/-- A high-criticality task (little 1, big 2, virtual deadline 1, period 2,
job index 3) used as the C7 witness. -/
def c7_task : Task :=
  { period := 2, utilization := ⟨1, 2⟩, resource_demands := fun _ => 0,
    current_job := 3, progress := 0, kind := .high 1 2 1 }

/-- Witness for C7 at a concrete high-criticality task. -/
theorem c7_high_deadline_mode_mapping_witness :
    c7_task.get_deadline .NORMAL = (c7_task.current_job : ℤ) * c7_task.period + c7_task.period ∧
    c7_task.get_deadline .OVERRUN = (c7_task.current_job : ℤ) * c7_task.period + 1 :=
  c7_high_deadline_mode_mapping c7_task 1 2 1 rfl

/-! C3. -/

/-- A high-criticality task on its second job (current_job 1), just released
at time 2, unfinished, with virtual deadline offset 1. -/
def c3_task : Task :=
  { period := 2, utilization := ⟨1, 2⟩, resource_demands := fun _ => 0,
    current_job := 1, progress := 0, kind := .high 1 2 1 }

/-- A simulator state at time 2 holding only c3_task. -/
def c3_state : SimState :=
  { mode := .NORMAL, store := [c3_task], high_criticality_tasks := [0],
    low_criticality_tasks := [], resources := [], cores := [unit_core],
    current_time := 2, cpu_count := 1, edf_vd_x := ⟨1, 2⟩, srp_table := [],
    system_ceiling := none }

/-- C3 counterexample: at time 2 the mode-update step yields OVERRUN although
no high-criticality task satisfies the claim's condition
current_job*period + virtual_deadline ≤ now (1*2 + 1 = 3 > 2): the source
compares the period-relative virtual_deadline directly with the clock,
omitting the release term current_job*period. -/
theorem c3_counterexample :
    (update_mode c3_state).mode = .OVERRUN ∧
    (c3_state.high_criticality_tasks.all fun tid =>
      match c3_state.store.get? tid with
      | some t =>
        decide (¬((t.current_job : ℤ) * t.period + t.virtual_deadline ≤ (c3_state.current_time : ℤ)))
      | none => true) = true :=
  ⟨rfl, rfl⟩

/-- The per-task condition actually tested by Simulator._update_mode. -/
def update_mode_cond (store : List Task) (now : ℕ) (tid : ℕ) : Bool :=
  match store.get? tid with
  | some t => t.is_active now && decide (t.virtual_deadline ≤ (now : ℤ))
  | none => false

theorem update_mode_cond_iff (store : List Task) (now : ℕ) (tid : ℕ) :
    update_mode_cond store now tid = true ↔
      ∃ t : Task, store.get? tid = some t ∧ t.is_active now = true ∧
        t.virtual_deadline ≤ (now : ℤ) := by
  unfold update_mode_cond
  cases h : store.get? tid with
  | none => simp
  | some t => simp [h]

theorem update_mode_mode_eq (s : SimState) :
    (update_mode s).mode =
      if s.high_criticality_tasks.any (update_mode_cond s.store s.current_time)
      then Mode.OVERRUN else Mode.NORMAL := rfl

/-- C3 amended: the mode-update step sets OVERRUN iff some high-criticality
task is active and its period-relative virtual_deadline has been reached by
the absolute clock (virtual_deadline ≤ now, with no current_job*period
release term), otherwise NORMAL; and the result is recomputed fresh each
tick, independent of the previous mode. -/
theorem c3_update_mode_characterisation (s : SimState) :
    ((update_mode s).mode = .OVERRUN ↔
      ∃ tid ∈ s.high_criticality_tasks, ∃ t : Task,
        s.store.get? tid = some t ∧ t.is_active s.current_time = true ∧
        t.virtual_deadline ≤ (s.current_time : ℤ)) ∧
    (∀ m : Mode, (update_mode { s with mode := m }).mode = (update_mode s).mode) := by
  constructor
  · rw [update_mode_mode_eq]
    by_cases hp : s.high_criticality_tasks.any (update_mode_cond s.store s.current_time) = true
    · simp only [hp, if_true, true_iff]
      obtain ⟨tid, htid, hcond⟩ := List.any_eq_true.mp hp
      obtain ⟨t, ht, hact, hvd⟩ := (update_mode_cond_iff _ _ _).mp hcond
      exact ⟨tid, htid, t, ht, hact, hvd⟩
    · simp only [Bool.not_eq_true] at hp
      simp only [hp, Bool.false_eq_true, if_false]
      constructor
      · intro h; cases h
      · rintro ⟨tid, htid, t, ht, hact, hvd⟩
        have : s.high_criticality_tasks.any (update_mode_cond s.store s.current_time) = true :=
          List.any_eq_true.mpr ⟨tid, htid, (update_mode_cond_iff _ _ _).mpr ⟨t, ht, hact, hvd⟩⟩
        rw [hp] at this
        cases this
  · intro m; rfl

theorem max_period_isSome (tasks : List Task) (h : tasks ≠ []) :
    ∃ mp, max_period tasks = some mp := by
  cases tasks with
  | nil => exact absurd rfl h
  | cons t ts =>
    cases hm : max_period ts with
    | none => exact ⟨t.period, by simp [max_period, hm]⟩
    | some m => exact ⟨max t.period m, by simp [max_period, hm]⟩

/-! C8. -/

theorem srp_entry_cons (t : Task) (ts : List Task) (r i mp : ℕ) :
    srp_entry (t :: ts) r i mp =
      if i < t.resource_demands r then min t.period (srp_entry ts r i mp)
      else srp_entry ts r i mp := by
  simp only [srp_entry, List.filter_cons]
  by_cases h : i < t.resource_demands r
  · simp [h]
  · simp [h]

theorem srp_entry_mono (tasks : List Task) (r mp : ℕ) (i j : ℕ) (hij : i ≤ j) :
    srp_entry tasks r i mp ≤ srp_entry tasks r j mp := by
  induction tasks with
  | nil => simp [srp_entry]
  | cons t ts ih =>
    rw [srp_entry_cons, srp_entry_cons]
    by_cases hi : i < t.resource_demands r
    · by_cases hj : j < t.resource_demands r
      · simp only [hi, hj, if_true]
        exact min_le_min le_rfl ih
      · simp only [hi, hj, if_true, if_false]
        exact le_trans (min_le_right _ _) ih
    · have hj : ¬ j < t.resource_demands r := by omega
      simp only [hi, hj, if_false]
      exact ih

theorem getD_eq_get_of_lt (l : List ℕ) (n : ℕ) (h : n < l.length) :
    l.getD n 0 = l.get ⟨n, h⟩ :=
  List.getD_eq_get l 0 h

/-- C8: in the SRP table built from any non-empty task set, each resource's
entry list is monotonically non-decreasing in the occupancy level, and in
particular the entry at occupancy 0 is at most the entry at the maximum
occupancy (the last entry). -/
theorem c8_srp_table_monotone (tasks : List Task) (caps : List ℕ) (T : List (List ℕ))
    (hne : tasks ≠ []) (hT : generate_srp_table tasks caps = some T) :
    ∀ tbl ∈ T,
      (∀ i j (hij : i ≤ j) (hj : j < tbl.length),
        tbl.get ⟨i, lt_of_le_of_lt hij hj⟩ ≤ tbl.get ⟨j, hj⟩) ∧
      tbl.getD 0 0 ≤ tbl.getD (tbl.length - 1) 0 := by
  obtain ⟨mp, hmp⟩ := max_period_isSome tasks hne
  rw [generate_srp_table, hmp] at hT
  simp only [Option.some.injEq] at hT
  intro tbl htbl
  rw [← hT] at htbl
  obtain ⟨p, _, hp⟩ := List.mem_map.mp htbl
  have hmain : ∀ i j (hij : i ≤ j) (hj : j < tbl.length),
      tbl.get ⟨i, lt_of_le_of_lt hij hj⟩ ≤ tbl.get ⟨j, hj⟩ := by
    intro i j hij hj
    have hi : i < tbl.length := lt_of_le_of_lt hij hj
    subst hp
    rw [List.get_map, List.get_map, List.get_range, List.get_range]
    exact srp_entry_mono tasks p.1 mp i j hij
  refine ⟨hmain, ?_⟩
  have hlen : 0 < tbl.length := by
    subst hp
    simp
  have hlast : tbl.length - 1 < tbl.length := by omega
  rw [getD_eq_get_of_lt tbl 0 hlen, getD_eq_get_of_lt tbl (tbl.length - 1) hlast]
  exact hmain 0 (tbl.length - 1) (by omega) hlast

/-- A task demanding 2 units of resource 0, period 3. -/
def c8_task_a : Task :=
  { period := 3, utilization := ⟨1, 2⟩, resource_demands := fun r => if r = 0 then 2 else 0,
    current_job := 0, progress := 0, kind := .low 1 }

/-- A task demanding nothing, period 7. -/
def c8_task_b : Task :=
  { period := 7, utilization := ⟨1, 7⟩, resource_demands := fun _ => 0,
    current_job := 0, progress := 0, kind := .low 1 }

/-- The SRP table of the two-task, one-resource (capacity 2) witness. -/
def c8_table : List (List ℕ) :=
  (generate_srp_table [c8_task_a, c8_task_b] [2]).getD []

/-- Witness for C8 at a concrete task set: the single table of the
capacity-2 resource is [3, 3, 7]; monotone, with first entry at most the
last. -/
theorem c8_srp_table_monotone_witness :
    (c8_table.getD 0 []).getD 0 0 ≤
      (c8_table.getD 0 []).getD ((c8_table.getD 0 []).length - 1) 0 :=
  ((c8_srp_table_monotone [c8_task_a, c8_task_b] [2] c8_table (by simp) rfl)
    (c8_table.getD 0 []) (by rw [c8_table]; exact List.mem_cons_self _ _)).2

/-! C5. -/

/-- A low-criticality task demanding one unit of the single resource. -/
def c5_task_a : Task :=
  { period := 10, utilization := ⟨1, 5⟩, resource_demands := fun _ => 1,
    current_job := 0, progress := 0, kind := .low 2 }

/-- A second, identical low-criticality task. -/
def c5_task_b : Task :=
  { period := 10, utilization := ⟨1, 5⟩, resource_demands := fun _ => 1,
    current_job := 0, progress := 0, kind := .low 2 }

/-- The core bound to c5_task_a. -/
def c5_core_a : Core :=
  { task_set := [0], utilization := ⟨1, 1⟩, wfd := ⟨1, 5⟩,
    resource_congestion := fun _ => 1, is_busy_waiting := false, assigned := none }

/-- The core bound to c5_task_b. -/
def c5_core_b : Core :=
  { task_set := [1], utilization := ⟨1, 1⟩, wfd := ⟨1, 5⟩,
    resource_congestion := fun _ => 1, is_busy_waiting := false, assigned := none }

/-- Two cores contending for one capacity-1 resource, stored order a-then-b. -/
def c5_state_ab : SimState :=
  { mode := .NORMAL, store := [c5_task_a, c5_task_b], high_criticality_tasks := [],
    low_criticality_tasks := [0, 1], resources := [1], cores := [c5_core_a, c5_core_b],
    current_time := 0, cpu_count := 2, edf_vd_x := ⟨0, 1⟩, srp_table := [[10, 10]],
    system_ceiling := none }

/-- The same system with the core order permuted. -/
def c5_state_ba : SimState := { c5_state_ab with cores := [c5_core_b, c5_core_a] }

/-- C5 counterexample: a two-core system with one capacity-1 resource and two
unit-demand tasks, one bound to each core.  Under the stored core order the
first-listed core runs its task and the second busy-waits; permuting the core
order swaps the roles — the core with task_set [0] runs in one order and
busy-waits in the other — so the tick's outcome is not invariant under
permutations of the core iteration order.  Each core is projected to
(task_set, dispatched entry, busy-waiting flag). -/
theorem c5_counterexample :
    (tick spec_preemption_level c5_state_ab).toOption.map
        (fun s => s.cores.map fun c => (c.task_set, c.assigned, c.is_busy_waiting)) =
      some [([0], some 0, false), ([1], some 1, true)] ∧
    (tick spec_preemption_level c5_state_ba).toOption.map
        (fun s => s.cores.map fun c => (c.task_set, c.assigned, c.is_busy_waiting)) =
      some [([1], some 1, false), ([0], some 0, true)] :=
  ⟨rfl, rfl⟩

/-- C5 amended: within one tick each core's resource-availability check is
evaluated against the live dispatch table, in which cores earlier in the
iteration order have already been updated this same tick; in a two-core
system, when both cores dispatch a candidate and the first core's freshly
admitted task makes the second core's check fail — even at inputs where the
check against the prior-tick snapshot succeeds — the second core enters
busy-waiting.  (The outcome is deterministic only for the fixed stored core
order; by c5_counterexample it is not invariant under permuting that
order.) -/
theorem c5_admission_sees_earlier_updates (plevel : PLevel) (s : SimState)
    (c0 c1 : Core) (tid0 tid1 : ℕ)
    (hc : s.cores = [c0, c1])
    (hb0 : c0.is_busy_waiting = false) (hb1 : c1.is_busy_waiting = false)
    (hq0 : (dispatch_queue plevel s.srp_table s.system_ceiling s.mode s.current_time s.store c0).head? = some tid0)
    (hq1 : (dispatch_queue plevel s.srp_table s.system_ceiling s.mode s.current_time s.store c1).head? = some tid1)
    (hav0 : resources_are_available s.store s.resources
      [{ c0 with assigned := some tid0 }, c1] (some tid0) 0 = true)
    (hsnap : resources_are_available s.store s.resources
      [c0, { c1 with assigned := some tid1 }] (some tid1) 1 = true)
    (hupd : resources_are_available s.store s.resources
      [{ c0 with assigned := some tid0, is_busy_waiting := false },
       { c1 with assigned := some tid1 }] (some tid1) 1 = false) :
    (scheduled_tasks plevel s).cores =
      [{ c0 with assigned := some tid0, is_busy_waiting := false },
       { c1 with assigned := some tid1, is_busy_waiting := true }] := by
  obtain ⟨q0, hq0'⟩ : ∃ rest,
      dispatch_queue plevel s.srp_table s.system_ceiling s.mode s.current_time s.store c0 =
        tid0 :: rest := by
    cases hq : dispatch_queue plevel s.srp_table s.system_ceiling s.mode s.current_time s.store c0 with
    | nil => rw [hq] at hq0; cases hq0
    | cons a l =>
      rw [hq] at hq0
      simp only [List.head?_cons, Option.some.injEq] at hq0
      exact ⟨l, by rw [hq0]⟩
  obtain ⟨q1, hq1'⟩ : ∃ rest,
      dispatch_queue plevel s.srp_table s.system_ceiling s.mode s.current_time s.store c1 =
        tid1 :: rest := by
    cases hq : dispatch_queue plevel s.srp_table s.system_ceiling s.mode s.current_time s.store c1 with
    | nil => rw [hq] at hq1; cases hq1
    | cons a l =>
      rw [hq] at hq1
      simp only [List.head?_cons, Option.some.injEq] at hq1
      exact ⟨l, by rw [hq1]⟩
  have hrange : List.range s.cores.length = [0, 1] := by rw [hc]; rfl
  rw [hb0] at hav0
  rw [hb1] at hupd
  have hstep0 : scheduled_step plevel s.store s.resources s.srp_table s.system_ceiling
      s.mode s.current_time [c0, c1] 0 =
      [{ c0 with assigned := some tid0, is_busy_waiting := false }, c1] := by
    unfold scheduled_step
    simp only [List.get?, hb0, Bool.false_eq_true, if_false, hq0', List.set]
    rw [hav0]
    simp
  have hstep1 : scheduled_step plevel s.store s.resources s.srp_table s.system_ceiling
      s.mode s.current_time
      [{ c0 with assigned := some tid0, is_busy_waiting := false }, c1] 1 =
      [{ c0 with assigned := some tid0, is_busy_waiting := false },
       { c1 with assigned := some tid1, is_busy_waiting := true }] := by
    unfold scheduled_step
    simp only [List.get?, hb1, Bool.false_eq_true, if_false, hq1', List.set]
    rw [hupd]
    simp
  show ((List.range s.cores.length).foldl
      (scheduled_step plevel s.store s.resources s.srp_table s.system_ceiling s.mode s.current_time)
      s.cores) = _
  rw [hrange, hc]
  simp only [List.foldl_cons, List.foldl_nil, hstep0, hstep1]

/-- Witness for C5's amended statement at the concrete contended scenario:
the prior-tick snapshot admits core b's task, yet after the dispatch phase
core b is busy-waiting because core a's same-tick dispatch is counted. -/
theorem c5_admission_sees_earlier_updates_witness :
    resources_are_available c5_state_ab.store c5_state_ab.resources
        [c5_core_a, { c5_core_b with assigned := some 1 }] (some 1) 1 = true ∧
    (scheduled_tasks spec_preemption_level c5_state_ab).cores =
      [{ c5_core_a with assigned := some 0, is_busy_waiting := false },
       { c5_core_b with assigned := some 1, is_busy_waiting := true }] :=
  ⟨rfl, c5_admission_sees_earlier_updates spec_preemption_level c5_state_ab
    c5_core_a c5_core_b 0 1 rfl rfl rfl rfl rfl rfl rfl rfl⟩

/-! C9. -/

theorem sched_step_shape (plevel : PLevel) (store : List Task) (caps : List ℕ)
    (srp : List (List ℕ)) (ceiling : Option ℤ) (m : Mode) (now : ℕ)
    (cores : List Core) (j : ℕ) :
    scheduled_step plevel store caps srp ceiling m now cores j = cores ∨
    ∃ c', scheduled_step plevel store caps srp ceiling m now cores j = cores.set j c' := by
  unfold scheduled_step
  cases h : cores.get? j with
  | none => left; simp only [h]
  | some c =>
    simp only [h]
    by_cases hb : c.is_busy_waiting = true
    · left; simp [hb]
    · rw [Bool.not_eq_true] at hb
      cases hq : dispatch_queue plevel srp ceiling m now store c with
      | nil => left; simp [hb, hq]
      | cons tid rest =>
        by_cases hav : resources_are_available store caps
            (cores.set j { c with assigned := some tid, is_busy_waiting := false }) (some tid) j = true
        · right
          refine ⟨{ c with assigned := some tid, is_busy_waiting := false }, ?_⟩
          simp [hb, hq, hav, List.set_set]
        · right
          refine ⟨{ c with assigned := some tid, is_busy_waiting := true }, ?_⟩
          simp [hb, hq, hav, List.set_set]

theorem sched_step_empty_queue (plevel : PLevel) (store : List Task) (caps : List ℕ)
    (srp : List (List ℕ)) (ceiling : Option ℤ) (m : Mode) (now : ℕ)
    (cores : List Core) (i : ℕ) (c : Core)
    (h : cores.get? i = some c) (hb : c.is_busy_waiting = false)
    (hq : dispatch_queue plevel srp ceiling m now store c = []) :
    scheduled_step plevel store caps srp ceiling m now cores i = cores := by
  unfold scheduled_step
  simp only [h]
  simp [hb, hq]

theorem sched_fold_preserve (plevel : PLevel) (store : List Task) (caps : List ℕ)
    (srp : List (List ℕ)) (ceiling : Option ℤ) (m : Mode) (now : ℕ) (L : List ℕ) :
    ∀ (cores : List Core) (i : ℕ) (c : Core),
      cores.get? i = some c → c.is_busy_waiting = false →
      dispatch_queue plevel srp ceiling m now store c = [] →
      (L.foldl (scheduled_step plevel store caps srp ceiling m now) cores).get? i = some c := by
  induction L with
  | nil => intro cores i c h _ _; exact h
  | cons j L ih =>
    intro cores i c h hb hq
    simp only [List.foldl_cons]
    refine ih _ i c ?_ hb hq
    by_cases hji : j = i
    · subst hji
      rw [sched_step_empty_queue plevel store caps srp ceiling m now cores j c h hb hq]
      exact h
    · rcases sched_step_shape plevel store caps srp ceiling m now cores j with heq | ⟨c', heq⟩
      · rw [heq]; exact h
      · rw [heq, List.get?_set_ne _ _ hji]; exact h

theorem busy_step_shape (store : List Task) (caps : List ℕ) (cores : List Core) (j : ℕ) :
    update_busy_step store caps cores j = cores ∨
    ∃ c', update_busy_step store caps cores j = cores.set j c' := by
  unfold update_busy_step
  cases h : cores.get? j with
  | none => left; simp only [h]
  | some c =>
    simp only [h]
    by_cases hb : c.is_busy_waiting = true
    · by_cases hav : resources_are_available store caps cores c.assigned j = true
      · right; exact ⟨{ c with is_busy_waiting := false }, by simp [hb, hav]⟩
      · left; simp [hb, hav]
    · rw [Bool.not_eq_true] at hb
      left; simp [hb]

theorem busy_step_not_busy (store : List Task) (caps : List ℕ) (cores : List Core)
    (i : ℕ) (c : Core) (h : cores.get? i = some c) (hb : c.is_busy_waiting = false) :
    update_busy_step store caps cores i = cores := by
  unfold update_busy_step
  simp only [h]
  simp [hb]

theorem busy_fold_preserve (store : List Task) (caps : List ℕ) (L : List ℕ) :
    ∀ (cores : List Core) (i : ℕ) (c : Core),
      cores.get? i = some c → c.is_busy_waiting = false →
      (L.foldl (update_busy_step store caps) cores).get? i = some c := by
  induction L with
  | nil => intro cores i c h _; exact h
  | cons j L ih =>
    intro cores i c h hb
    simp only [List.foldl_cons]
    refine ih _ i c ?_ hb
    by_cases hji : j = i
    · subst hji
      rw [busy_step_not_busy store caps cores j c h hb]
      exact h
    · rcases busy_step_shape store caps cores j with heq | ⟨c', heq⟩
      · rw [heq]; exact h
      · rw [heq, List.get?_set_ne _ _ hji]; exact h

theorem advance_one_preserve (store : List Task) (c : Core) (tid : ℕ)
    (h : c.is_busy_waiting = false → c.assigned ≠ some tid) :
    (advance_one store c).get? tid = store.get? tid := by
  unfold advance_one
  by_cases hb : c.is_busy_waiting = true
  · simp [hb]
  · rw [Bool.not_eq_true] at hb
    cases ha : c.assigned with
    | none => simp [hb, ha]
    | some tid' =>
      have hne : tid' ≠ tid := fun he => h hb (by rw [ha, he])
      simp only [hb, Bool.false_eq_true, if_false, ha]
      cases hst : store.get? tid' with
      | none => simp only [hst]
      | some t' =>
        simp only [hst]
        exact List.get?_set_ne _ _ hne

theorem getD_eq_of_get? (l : List Core) (n : ℕ) (a d : Core) (h : l.get? n = some a) :
    l.getD n d = a := by
  rw [List.getD_eq_get?, h]
  rfl

theorem advance_fold_not_held (tid : ℕ) :
    ∀ (cs : List Core) (store : List Task),
      (∀ c' ∈ cs, c'.is_busy_waiting = false → c'.assigned ≠ some tid) →
      (advance_fold store cs).get? tid = store.get? tid := by
  intro cs
  induction cs with
  | nil => intro store _; rfl
  | cons c cs ih =>
    intro store hno
    show (advance_fold (advance_one store c) cs).get? tid = store.get? tid
    rw [ih _ fun c' hc' => hno c' (List.mem_cons_of_mem _ hc')]
    exact advance_one_preserve store c tid (hno c (List.mem_cons_self _ _))

theorem advance_fold_held (tid : ℕ) (t : Task) :
    ∀ (cs : List Core) (i : ℕ) (store : List Task) (c : Core),
      cs.get? i = some c → c.is_busy_waiting = false → c.assigned = some tid →
      store.get? tid = some t →
      (∀ j, j < cs.length → j ≠ i → (cs.getD j default_core).assigned ≠ some tid) →
      (advance_fold store cs).get? tid = some t.calculate := by
  intro cs
  induction cs with
  | nil => intro i store c h _ _ _ _; cases h
  | cons c' cs ih =>
    intro i store c h hb ha hst huniq
    cases i with
    | zero =>
      have hc' : c' = c := by
        simp only [List.get?] at h
        exact Option.some.inj h
      subst hc'
      show (advance_fold (advance_one store c') cs).get? tid = some t.calculate
      have hone : advance_one store c' = store.set tid t.calculate := by
        unfold advance_one
        simp only [hb, Bool.false_eq_true, if_false, ha, hst]
      rw [hone]
      have htid : tid < store.length := by
        have := List.get?_eq_some.mp hst
        exact this.1
      rw [advance_fold_not_held tid cs _ ?_]
      · exact List.get?_set_eq_of_lt _ htid
      · intro c'' hc'' hb'' hassg
        obtain ⟨n, hn⟩ := List.mem_iff_get?.mp hc''
        have hnlt : n < cs.length := by
          have := List.get?_eq_some.mp hn
          exact this.1
        have := huniq (n + 1) (by simpa using Nat.succ_lt_succ hnlt) (Nat.succ_ne_zero n)
        have hgd : (c' :: cs).getD (n + 1) default_core = c'' := by
          show cs.getD n default_core = c''
          exact getD_eq_of_get? cs n c'' default_core hn
        rw [hgd] at this
        exact this hassg
    | succ j' =>
      have h' : cs.get? j' = some c := h
      have hhead : c'.is_busy_waiting = false → c'.assigned ≠ some tid := by
        intro _
        have := huniq 0 (Nat.succ_pos _) (Nat.succ_ne_zero j').symm
        simpa [List.getD] using this
      show (advance_fold (advance_one store c') cs).get? tid = some t.calculate
      refine ih j' (advance_one store c') c h' hb ha ?_ ?_
      · rw [advance_one_preserve store c' tid hhead]
        exact hst
      · intro j hj hne
        have := huniq (j + 1) (by simpa using Nat.succ_lt_succ hj)
          (fun he => hne (Nat.succ_injective he))
        simpa [List.getD] using this

/-- C9: during the dispatch phase, a non-busy-waiting core whose filtered
candidate queue is empty is left entirely unchanged — the same dispatched
entry (possibly none) and the same busy-waiting flag survive both
_scheduled_tasks and _update_busy_waiting_cores — and its previous occupant,
if any (and, tasks being bound to one core, held by no other core at the end
of the phase), gains exactly one tick of progress in the advance phase of the
same tick. -/
theorem c9_empty_queue_frame (plevel : PLevel) (s : SimState) (i : ℕ) (c : Core)
    (hget : s.cores.get? i = some c)
    (hnb : c.is_busy_waiting = false)
    (hq : dispatch_queue plevel s.srp_table s.system_ceiling s.mode s.current_time s.store c = []) :
    (scheduled_tasks plevel s).cores.get? i = some c ∧
    (update_busy_waiting_cores (scheduled_tasks plevel s)).cores.get? i = some c ∧
    (∀ tid t, c.assigned = some tid → s.store.get? tid = some t →
      (∀ j, j < (update_busy_waiting_cores (scheduled_tasks plevel s)).cores.length → j ≠ i →
        ((update_busy_waiting_cores (scheduled_tasks plevel s)).cores.getD j default_core).assigned
          ≠ some tid) →
      (advance_forward_tasks (update_busy_waiting_cores (scheduled_tasks plevel s))).store.get? tid =
        some t.calculate) := by
  have h5 : (scheduled_tasks plevel s).cores.get? i = some c :=
    sched_fold_preserve plevel s.store s.resources s.srp_table s.system_ceiling s.mode
      s.current_time (List.range s.cores.length) s.cores i c hget hnb hq
  have h6 : (update_busy_waiting_cores (scheduled_tasks plevel s)).cores.get? i = some c :=
    busy_fold_preserve (scheduled_tasks plevel s).store (scheduled_tasks plevel s).resources
      (List.range (scheduled_tasks plevel s).cores.length) (scheduled_tasks plevel s).cores i c
      h5 hnb
  refine ⟨h5, h6, ?_⟩
  intro tid t ha hst huniq
  exact advance_fold_held tid t
    (update_busy_waiting_cores (scheduled_tasks plevel s)).cores i
    (update_busy_waiting_cores (scheduled_tasks plevel s)).store c h6 hnb ha hst huniq

/-- A low-criticality task whose current job is already finished (progress 1,
computation 1), so it is inactive. -/
def c9_task : Task :=
  { period := 4, utilization := ⟨1, 4⟩, resource_demands := fun _ => 0,
    current_job := 0, progress := 1, kind := .low 1 }

/-- A non-busy-waiting core still holding c9_task from the previous tick. -/
def c9_core : Core :=
  { task_set := [0], utilization := ⟨1, 1⟩, wfd := ⟨1, 4⟩,
    resource_congestion := fun _ => 0, is_busy_waiting := false, assigned := some 0 }

/-- A mid-tick state at time 1 in which c9_core's candidate queue is empty. -/
def c9_state : SimState :=
  { mode := .NORMAL, store := [c9_task], high_criticality_tasks := [],
    low_criticality_tasks := [0], resources := [], cores := [c9_core],
    current_time := 1, cpu_count := 1, edf_vd_x := ⟨0, 1⟩, srp_table := [],
    system_ceiling := none }

/-- Witness for C9 at the concrete state: the core entry survives the
dispatch and busy-retry phases unchanged, and the stale occupant gains one
tick of progress. -/
theorem c9_empty_queue_frame_witness :
    (scheduled_tasks spec_preemption_level c9_state).cores.get? 0 = some c9_core ∧
    (update_busy_waiting_cores (scheduled_tasks spec_preemption_level c9_state)).cores.get? 0 =
      some c9_core ∧
    (advance_forward_tasks
        (update_busy_waiting_cores (scheduled_tasks spec_preemption_level c9_state))).store.get? 0 =
      some c9_task.calculate := by
  obtain ⟨h1, h2, h3⟩ :=
    c9_empty_queue_frame spec_preemption_level c9_state 0 c9_core rfl rfl rfl
  exact ⟨h1, h2, h3 0 c9_task rfl rfl (by decide)⟩

/-! C4. -/

/-- The demand a single core contributes to resource r when actually running
(dispatched and not busy-waiting). -/
def core_contrib (store : List Task) (c : Core) (r : ℕ) : ℕ :=
  if c.is_busy_waiting then 0 else task_demand store c.assigned r

/-- Total demand for resource r of all tasks actually running across the
cores. -/
def running_usage (store : List Task) (r : ℕ) : List Core → ℕ
  | [] => 0
  | c :: cs => core_contrib store c r + running_usage store r cs

/-- Total running demand for resource r over all cores except the one at
index target (i indexes the head of the remaining list). -/
def usage_except (store : List Task) (target r : ℕ) : ℕ → List Core → ℕ
  | _, [] => 0
  | i, c :: cs =>
    (if i = target then 0 else core_contrib store c r) + usage_except store target r (i + 1) cs

/-- The claimed invariant: at the state's tick, for every resource, the sum
of the demands of all tasks actually running across all cores is at most
that resource's capacity. -/
def cores_ok (store : List Task) (caps : List ℕ) (cores : List Core) : Prop :=
  ∀ r, r < caps.length → running_usage store r cores ≤ caps.getD r 0

/-- The invariant read off a simulator state. -/
def resource_ok (s : SimState) : Prop :=
  cores_ok s.store s.resources s.cores

/-- Two task stores agreeing on every dispatch-table demand lookup. -/
def demands_eq (store store' : List Task) : Prop :=
  ∀ a r, task_demand store' a r = task_demand store a r

theorem demands_eq_refl (store : List Task) : demands_eq store store := fun _ _ => rfl

theorem demands_eq_trans {s1 s2 s3 : List Task}
    (h12 : demands_eq s1 s2) (h23 : demands_eq s2 s3) : demands_eq s1 s3 :=
  fun a r => (h23 a r).trans (h12 a r)

theorem demands_eq_set (store : List Task) (tid : ℕ) (t t' : Task)
    (ht : store.get? tid = some t)
    (hd : t'.resource_demands = t.resource_demands) :
    demands_eq store (store.set tid t') := by
  intro a r
  cases a with
  | none => rfl
  | some x =>
    show task_demand (store.set tid t') (some x) r = task_demand store (some x) r
    by_cases hx : x = tid
    · subst hx
      have hlt : x < store.length := by
        have := List.get?_eq_some.mp ht
        exact this.1
      unfold task_demand
      rw [Option.some_bind, Option.some_bind, List.get?_set_eq_of_lt _ hlt, ht]
      show t'.resource_demands r = t.resource_demands r
      rw [hd]
    · unfold task_demand
      rw [Option.some_bind, Option.some_bind, List.get?_set_ne _ _ fun he => hx he.symm]

theorem core_contrib_congr {store store' : List Task} (h : demands_eq store store')
    (c : Core) (r : ℕ) : core_contrib store' c r = core_contrib store c r := by
  unfold core_contrib
  by_cases hb : c.is_busy_waiting = true
  · simp [hb]
  · rw [Bool.not_eq_true] at hb
    simp only [hb, Bool.false_eq_true, if_false]
    exact h c.assigned r

theorem running_usage_congr {store store' : List Task} (h : demands_eq store store')
    (r : ℕ) : ∀ cs : List Core, running_usage store' r cs = running_usage store r cs := by
  intro cs
  induction cs with
  | nil => rfl
  | cons c cs ih =>
    show core_contrib store' c r + _ = core_contrib store c r + _
    rw [core_contrib_congr h, ih]

theorem usage_except_le_running (store : List Task) (target r : ℕ) :
    ∀ (cs : List Core) (i : ℕ), usage_except store target r i cs ≤ running_usage store r cs := by
  intro cs
  induction cs with
  | nil => intro i; exact le_rfl
  | cons c cs ih =>
    intro i
    show (if i = target then 0 else core_contrib store c r) + _ ≤ core_contrib store c r + _
    by_cases hit : i = target
    · rw [if_pos hit]
      exact Nat.add_le_add (Nat.zero_le _) (ih (i + 1))
    · rw [if_neg hit]
      exact Nat.add_le_add le_rfl (ih (i + 1))

theorem usage_except_le_held (store : List Task) (target r : ℕ) :
    ∀ (cs : List Core) (i : ℕ),
      usage_except store target r i cs ≤ held_usage_except store target r i cs := by
  intro cs
  induction cs with
  | nil => intro i; exact le_rfl
  | cons c cs ih =>
    intro i
    show (if i = target then 0 else core_contrib store c r) + _ ≤
      (if i = target then 0 else task_demand store c.assigned r) + _
    refine Nat.add_le_add ?_ (ih (i + 1))
    by_cases hit : i = target
    · simp [hit]
    · simp only [hit, if_false]
      unfold core_contrib
      by_cases hb : c.is_busy_waiting = true
      · simp [hb]
      · rw [Bool.not_eq_true] at hb
        simp [hb]

theorem usage_except_out_of_range (store : List Task) (target r : ℕ) :
    ∀ (cs : List Core) (i : ℕ), target < i →
      usage_except store target r i cs = running_usage store r cs := by
  intro cs
  induction cs with
  | nil => intro i _; rfl
  | cons c cs ih =>
    intro i hti
    show (if i = target then 0 else core_contrib store c r) + _ = core_contrib store c r + _
    rw [if_neg (by omega), ih (i + 1) (by omega)]

theorem running_usage_split (store : List Task) (r : ℕ) :
    ∀ (cs : List Core) (k i : ℕ) (c : Core), cs.get? k = some c →
      running_usage store r cs = usage_except store (i + k) r i cs + core_contrib store c r := by
  intro cs
  induction cs with
  | nil => intro k i c h; cases h
  | cons c' cs ih =>
    intro k i c h
    cases k with
    | zero =>
      have hc : c' = c := by
        simp only [List.get?] at h
        exact Option.some.inj h
      subst hc
      show core_contrib store c' r + running_usage store r cs =
        ((if i = i + 0 then 0 else core_contrib store c' r) +
          usage_except store (i + 0) r (i + 1) cs) + core_contrib store c' r
      rw [if_pos (by omega), usage_except_out_of_range store (i + 0) r cs (i + 1) (by omega)]
      omega
    | succ k' =>
      have h' : cs.get? k' = some c := h
      show core_contrib store c' r + running_usage store r cs =
        ((if i = i + (k' + 1) then 0 else core_contrib store c' r) +
          usage_except store (i + (k' + 1)) r (i + 1) cs) + core_contrib store c r
      rw [if_neg (by omega)]
      have harg : i + (k' + 1) = (i + 1) + k' := by omega
      rw [harg, ih k' (i + 1) c h']
      omega

theorem usage_except_set (store : List Task) (r : ℕ) :
    ∀ (cs : List Core) (k i : ℕ) (x : Core),
      usage_except store (i + k) r i (cs.set k x) = usage_except store (i + k) r i cs := by
  intro cs
  induction cs with
  | nil => intro k i x; rfl
  | cons c cs ih =>
    intro k i x
    cases k with
    | zero =>
      show (if i = i + 0 then 0 else core_contrib store x r) +
          usage_except store (i + 0) r (i + 1) cs =
        (if i = i + 0 then 0 else core_contrib store c r) +
          usage_except store (i + 0) r (i + 1) cs
      rw [if_pos (by omega), if_pos (by omega)]
    | succ k' =>
      show (if i = i + (k' + 1) then 0 else core_contrib store c r) +
          usage_except store (i + (k' + 1)) r (i + 1) (cs.set k' x) =
        (if i = i + (k' + 1) then 0 else core_contrib store c r) +
          usage_except store (i + (k' + 1)) r (i + 1) cs
      have harg : i + (k' + 1) = (i + 1) + k' := by omega
      rw [harg, ih k' (i + 1) x]

theorem held_except_set (store : List Task) (r : ℕ) :
    ∀ (cs : List Core) (k i : ℕ) (x : Core),
      held_usage_except store (i + k) r i (cs.set k x) =
        held_usage_except store (i + k) r i cs := by
  intro cs
  induction cs with
  | nil => intro k i x; rfl
  | cons c cs ih =>
    intro k i x
    cases k with
    | zero =>
      show (if i = i + 0 then 0 else task_demand store x.assigned r) +
          held_usage_except store (i + 0) r (i + 1) cs =
        (if i = i + 0 then 0 else task_demand store c.assigned r) +
          held_usage_except store (i + 0) r (i + 1) cs
      rw [if_pos (by omega), if_pos (by omega)]
    | succ k' =>
      show (if i = i + (k' + 1) then 0 else task_demand store c.assigned r) +
          held_usage_except store (i + (k' + 1)) r (i + 1) (cs.set k' x) =
        (if i = i + (k' + 1) then 0 else task_demand store c.assigned r) +
          held_usage_except store (i + (k' + 1)) r (i + 1) cs
      have harg : i + (k' + 1) = (i + 1) + k' := by omega
      rw [harg, ih k' (i + 1) x]

theorem running_usage_set (store : List Task) (r : ℕ) (cs : List Core) (k : ℕ) (x : Core)
    (hk : k < cs.length) :
    running_usage store r (cs.set k x) = usage_except store k r 0 cs + core_contrib store x r := by
  have hget : (cs.set k x).get? k = some x := List.get?_set_eq_of_lt _ hk
  rw [running_usage_split store r (cs.set k x) k 0 x hget]
  have h0 : (0 : ℕ) + k = k := Nat.zero_add k
  rw [show usage_except store (0 + k) r 0 (cs.set k x) = usage_except store k r 0 (cs.set k x) by rw [h0]]
  rw [show usage_except store k r 0 (cs.set k x) = usage_except store k r 0 cs by
    have := usage_except_set store r cs k 0 x
    rw [h0] at this
    exact this]

theorem avail_spec (store : List Task) (caps : List ℕ) (cores : List Core)
    (tid : ℕ) (t : Task) (target : ℕ)
    (hav : resources_are_available store caps cores (some tid) target = true)
    (ht : store.get? tid = some t) :
    ∀ r, r < caps.length →
      held_usage_except store target r 0 cores + t.resource_demands r ≤ caps.getD r 0 := by
  intro r hr
  unfold resources_are_available at hav
  simp only [Option.some_bind, ht] at hav
  simp only [List.all_eq_true, List.mem_range, decide_eq_true_eq] at hav
  exact hav r hr

theorem contrib_assigned_none (store : List Task) (c : Core) (r : ℕ) :
    core_contrib store { c with assigned := none } r = 0 := by
  show (if c.is_busy_waiting then 0 else task_demand store none r) = 0
  by_cases hb : c.is_busy_waiting = true
  · rw [if_pos hb]
  · rw [if_neg hb]
    rfl

theorem sched_step_ok (plevel : PLevel) (store : List Task) (caps : List ℕ)
    (srp : List (List ℕ)) (ceiling : Option ℤ) (m : Mode) (now : ℕ)
    (cores : List Core) (j : ℕ)
    (h : cores_ok store caps cores) :
    cores_ok store caps (scheduled_step plevel store caps srp ceiling m now cores j) := by
  unfold scheduled_step
  cases hg : cores.get? j with
  | none => simp only [hg]; exact h
  | some c =>
    simp only [hg]
    by_cases hb : c.is_busy_waiting = true
    · simp [hb]; exact h
    · rw [Bool.not_eq_true] at hb
      simp only [hb, Bool.false_eq_true, if_false]
      cases hq : dispatch_queue plevel srp ceiling m now store c with
      | nil => exact h
      | cons tid rest =>
        dsimp only
        have hjlen : j < cores.length := (List.get?_eq_some.mp hg).1
        by_cases hav : resources_are_available store caps
            (cores.set j { c with assigned := some tid, is_busy_waiting := false })
            (some tid) j = true
        · rw [if_pos hav, List.set_set]
          intro r hr
          rw [running_usage_set store r cores j _ hjlen]
          have hcr : core_contrib store { c with assigned := some tid, is_busy_waiting := false } r =
              task_demand store (some tid) r := rfl
          rw [hcr]
          cases hstid : store.get? tid with
          | none =>
            have h0 : task_demand store (some tid) r = 0 := by
              unfold task_demand
              rw [Option.some_bind, hstid]
            rw [h0]
            have h1 := usage_except_le_running store j r cores 0
            have h2 := h r hr
            omega
          | some t =>
            have hspec := avail_spec store caps _ tid t j hav hstid r hr
            have hhs : held_usage_except store j r 0
                (cores.set j { c with assigned := some tid, is_busy_waiting := false }) =
                held_usage_except store j r 0 cores := by
              have := held_except_set store r cores j 0
                { c with assigned := some tid, is_busy_waiting := false }
              rwa [Nat.zero_add] at this
            rw [hhs] at hspec
            have h1 := usage_except_le_held store j r cores 0
            have h0 : task_demand store (some tid) r = t.resource_demands r := by
              unfold task_demand
              rw [Option.some_bind, hstid]
            rw [h0]
            omega
        · rw [if_neg hav, List.set_set]
          intro r hr
          rw [running_usage_set store r cores j _ hjlen]
          have hcr : core_contrib store { c with assigned := some tid, is_busy_waiting := true } r =
              0 := rfl
          rw [hcr]
          have h1 := usage_except_le_running store j r cores 0
          have h2 := h r hr
          omega

theorem busy_step_ok (store : List Task) (caps : List ℕ) (cores : List Core) (j : ℕ)
    (h : cores_ok store caps cores) :
    cores_ok store caps (update_busy_step store caps cores j) := by
  unfold update_busy_step
  cases hg : cores.get? j with
  | none => simp only [hg]; exact h
  | some c =>
    simp only [hg]
    by_cases hb : c.is_busy_waiting = true
    · simp only [hb, if_true]
      by_cases hav : resources_are_available store caps cores c.assigned j = true
      · rw [if_pos hav]
        intro r hr
        have hjlen : j < cores.length := (List.get?_eq_some.mp hg).1
        rw [running_usage_set store r cores j _ hjlen]
        have hcr : core_contrib store { c with is_busy_waiting := false } r =
            task_demand store c.assigned r := rfl
        rw [hcr]
        cases ha : c.assigned with
        | none =>
          have h0 : task_demand store none r = 0 := rfl
          rw [h0]
          have h1 := usage_except_le_running store j r cores 0
          have h2 := h r hr
          omega
        | some tid =>
          rw [ha] at hav
          cases hstid : store.get? tid with
          | none =>
            have h0 : task_demand store (some tid) r = 0 := by
              unfold task_demand
              rw [Option.some_bind, hstid]
            rw [h0]
            have h1 := usage_except_le_running store j r cores 0
            have h2 := h r hr
            omega
          | some t =>
            have hspec := avail_spec store caps cores tid t j hav hstid r hr
            have h1 := usage_except_le_held store j r cores 0
            have h0 : task_demand store (some tid) r = t.resource_demands r := by
              unfold task_demand
              rw [Option.some_bind, hstid]
            rw [h0]
            omega
      · rw [if_neg hav]; exact h
    · rw [Bool.not_eq_true] at hb
      simp only [hb, Bool.false_eq_true, if_false]
      exact h

theorem sched_fold_ok (plevel : PLevel) (store : List Task) (caps : List ℕ)
    (srp : List (List ℕ)) (ceiling : Option ℤ) (m : Mode) (now : ℕ) (L : List ℕ) :
    ∀ cores, cores_ok store caps cores →
      cores_ok store caps (L.foldl (scheduled_step plevel store caps srp ceiling m now) cores) := by
  induction L with
  | nil => intro cores h; exact h
  | cons j L ih =>
    intro cores h
    exact ih _ (sched_step_ok plevel store caps srp ceiling m now cores j h)

theorem busy_fold_ok (store : List Task) (caps : List ℕ) (L : List ℕ) :
    ∀ cores, cores_ok store caps cores →
      cores_ok store caps (L.foldl (update_busy_step store caps) cores) := by
  induction L with
  | nil => intro cores h; exact h
  | cons j L ih =>
    intro cores h
    exact ih _ (busy_step_ok store caps cores j h)

theorem handle_done_step_ok (m : Mode) (now : ℕ) (store : List Task) (c : Core)
    (store1 : List Task) (c1 : Core)
    (h : handle_done_step m now store c = .ok (store1, c1)) :
    demands_eq store store1 ∧ ∀ r, core_contrib store1 c1 r ≤ core_contrib store c r := by
  unfold handle_done_step at h
  cases ha : c.assigned with
  | none =>
    simp only [ha, Except.ok.injEq, Prod.mk.injEq] at h
    obtain ⟨hs, hc⟩ := h
    subst hs; subst hc
    exact ⟨demands_eq_refl _, fun r => le_rfl⟩
  | some tid =>
    simp only [ha] at h
    cases hst : store.get? tid with
    | none =>
      simp only [hst, Except.ok.injEq, Prod.mk.injEq] at h
      obtain ⟨hs, hc⟩ := h
      subst hs; subst hc
      exact ⟨demands_eq_refl _, fun r => le_rfl⟩
    | some t =>
      simp only [hst] at h
      by_cases hf : t.is_finished m = true
      · rw [if_pos hf] at h
        simp only [Except.ok.injEq, Prod.mk.injEq] at h
        obtain ⟨hs, hc⟩ := h
        subst hs; subst hc
        refine ⟨demands_eq_set store tid t t.advanced_forward_job hst rfl, ?_⟩
        intro r
        rw [contrib_assigned_none]
        exact Nat.zero_le _
      · rw [if_neg hf] at h
        by_cases hm : t.is_deadline_missed m now = true
        · rw [if_pos hm] at h
          by_cases hh : t.is_high = true
          · rw [if_pos hh] at h
            exact Except.noConfusion h
          · rw [if_neg hh] at h
            simp only [Except.ok.injEq, Prod.mk.injEq] at h
            obtain ⟨hs, hc⟩ := h
            subst hs; subst hc
            refine ⟨demands_eq_set store tid t t.advanced_forward_job hst rfl, ?_⟩
            intro r
            rw [contrib_assigned_none]
            exact Nat.zero_le _
        · rw [if_neg hm] at h
          simp only [Except.ok.injEq, Prod.mk.injEq] at h
          obtain ⟨hs, hc⟩ := h
          subst hs; subst hc
          exact ⟨demands_eq_refl _, fun r => le_rfl⟩

theorem handle_done_fold_ok (m : Mode) (now : ℕ) :
    ∀ (cs : List Core) (store store1 : List Task) (cs1 : List Core),
      handle_done_fold m now store cs = .ok (store1, cs1) →
      demands_eq store store1 ∧
        ∀ r, running_usage store1 r cs1 ≤ running_usage store r cs := by
  intro cs
  induction cs with
  | nil =>
    intro store store1 cs1 h
    simp only [handle_done_fold, Except.ok.injEq, Prod.mk.injEq] at h
    obtain ⟨hs, hc⟩ := h
    subst hs; subst hc
    exact ⟨demands_eq_refl _, fun r => le_rfl⟩
  | cons c cs ih =>
    intro store store1 cs1 h
    unfold handle_done_fold at h
    cases hstep : handle_done_step m now store c with
    | error e =>
      simp only [hstep] at h
      exact Except.noConfusion h
    | ok p =>
      obtain ⟨store2, c2⟩ := p
      simp only [hstep] at h
      cases hrec : handle_done_fold m now store2 cs with
      | error e =>
        simp only [hrec] at h
        exact Except.noConfusion h
      | ok q =>
        obtain ⟨store3, cs3⟩ := q
        simp only [hrec, Except.ok.injEq, Prod.mk.injEq] at h
        obtain ⟨hs3, hc3⟩ := h
        subst hs3; subst hc3
        obtain ⟨hde1, hcon⟩ := handle_done_step_ok m now store c store2 c2 hstep
        obtain ⟨hde2, hrun⟩ := ih store2 store3 cs3 hrec
        refine ⟨demands_eq_trans hde1 hde2, ?_⟩
        intro r
        show core_contrib store3 c2 r + running_usage store3 r cs3 ≤
          core_contrib store c r + running_usage store r cs
        have e1 : core_contrib store3 c2 r = core_contrib store2 c2 r :=
          core_contrib_congr hde2 c2 r
        have e2 : running_usage store2 r cs = running_usage store r cs :=
          running_usage_congr hde1 r cs
        have i1 := hcon r
        have i2 := hrun r
        omega

theorem handle_done_tasks_ok (s s' : SimState) (hok : resource_ok s)
    (h : handle_done_tasks s = .ok s') : resource_ok s' := by
  unfold handle_done_tasks at h
  cases hf : handle_done_fold s.mode s.current_time s.store s.cores with
  | error e =>
    simp only [hf] at h
    exact Except.noConfusion h
  | ok p =>
    obtain ⟨store1, cores1⟩ := p
    simp only [hf, Except.ok.injEq] at h
    subst h
    obtain ⟨_, hrun⟩ := handle_done_fold_ok s.mode s.current_time s.cores s.store store1 cores1 hf
    intro r hr
    exact le_trans (hrun r) (hok r hr)

theorem disable_map_le (store : List Task) (f : Core → Core)
    (hf : ∀ c, f c = c ∨ f c = { c with assigned := none }) (r : ℕ) :
    ∀ cs : List Core, running_usage store r (cs.map f) ≤ running_usage store r cs := by
  intro cs
  induction cs with
  | nil => exact le_rfl
  | cons c cs ih =>
    show core_contrib store (f c) r + running_usage store r (cs.map f) ≤
      core_contrib store c r + running_usage store r cs
    refine Nat.add_le_add ?_ ih
    rcases hf c with hc | hc
    · rw [hc]
    · rw [hc, contrib_assigned_none]
      exact Nat.zero_le _

theorem disable_ok (s : SimState) (hok : resource_ok s) :
    resource_ok (disable_low_critical_tasks_in_overrun s) := by
  unfold disable_low_critical_tasks_in_overrun
  cases hm : s.mode with
  | NORMAL => exact hok
  | OVERRUN =>
    intro r hr
    refine le_trans (disable_map_le s.store _ ?_ r s.cores) (hok r hr)
    intro c
    cases hca : c.assigned.bind s.store.get? with
    | none => left; simp only [hca]
    | some t =>
      by_cases hh : t.is_high = true
      · left
        simp only [hca]
        rw [if_pos hh]
      · right
        simp only [hca]
        rw [if_neg hh]

theorem advance_one_demands_eq (store : List Task) (c : Core) :
    demands_eq store (advance_one store c) := by
  unfold advance_one
  by_cases hb : c.is_busy_waiting = true
  · rw [if_pos hb]
    exact demands_eq_refl store
  · rw [if_neg hb]
    cases ha : c.assigned with
    | none => exact demands_eq_refl store
    | some tid =>
      cases hst : store.get? tid with
      | none =>
        simp only [hst]
        exact demands_eq_refl store
      | some t =>
        simp only [hst]
        exact demands_eq_set store tid t t.calculate hst rfl

theorem advance_fold_demands_eq : ∀ (cs : List Core) (store : List Task),
    demands_eq store (advance_fold store cs) := by
  intro cs
  induction cs with
  | nil => intro store; exact demands_eq_refl store
  | cons c cs ih =>
    intro store
    exact demands_eq_trans (advance_one_demands_eq store c) (ih (advance_one store c))

theorem tick_resource_ok (plevel : PLevel) (s s' : SimState)
    (hok : resource_ok s) (h : tick plevel s = .ok s') : resource_ok s' := by
  simp only [tick] at h
  cases hh : handle_done_tasks (update_mode (update_system_ceiling plevel s)) with
  | error e =>
    rw [hh] at h
    exact Except.noConfusion h
  | ok s3 =>
    rw [hh] at h
    simp only [Except.ok.injEq] at h
    have hmode : resource_ok (update_mode (update_system_ceiling plevel s)) := hok
    have h3 : resource_ok s3 := handle_done_tasks_ok _ s3 hmode hh
    have h4 : resource_ok (disable_low_critical_tasks_in_overrun s3) := disable_ok s3 h3
    have h5 : resource_ok (scheduled_tasks plevel (disable_low_critical_tasks_in_overrun s3)) := by
      show cores_ok (disable_low_critical_tasks_in_overrun s3).store
        (disable_low_critical_tasks_in_overrun s3).resources _
      exact sched_fold_ok plevel _ _ _ _ _ _ _ _ h4
    have h6 : resource_ok (update_busy_waiting_cores
        (scheduled_tasks plevel (disable_low_critical_tasks_in_overrun s3))) := by
      show cores_ok _ _ _
      exact busy_fold_ok _ _ _ _ h5
    have h7 : resource_ok (advance_forward_tasks (update_busy_waiting_cores
        (scheduled_tasks plevel (disable_low_critical_tasks_in_overrun s3)))) := by
      intro r hr
      show running_usage
          (advance_fold
            (update_busy_waiting_cores
              (scheduled_tasks plevel (disable_low_critical_tasks_in_overrun s3))).store
            (update_busy_waiting_cores
              (scheduled_tasks plevel (disable_low_critical_tasks_in_overrun s3))).cores)
          r
          (update_busy_waiting_cores
            (scheduled_tasks plevel (disable_low_critical_tasks_in_overrun s3))).cores ≤
        (update_busy_waiting_cores
          (scheduled_tasks plevel (disable_low_critical_tasks_in_overrun s3))).resources.getD r 0
      rw [running_usage_congr (advance_fold_demands_eq _ _) r]
      exact h6 r hr
    rw [← h]
    exact h7

theorem iterate_resource_ok (plevel : PLevel) :
    ∀ (n : ℕ) (s s' : SimState), resource_ok s →
      iterate_ticks plevel n s = .ok s' → resource_ok s' := by
  intro n
  induction n with
  | zero =>
    intro s s' hok h
    simp only [iterate_ticks, Except.ok.injEq] at h
    rw [← h]
    exact hok
  | succ n ih =>
    intro s s' hok h
    unfold iterate_ticks at h
    cases ht : tick plevel s with
    | error e =>
      rw [ht] at h
      exact Except.noConfusion h
    | ok s1 =>
      rw [ht] at h
      exact ih s1 s' (tick_resource_ok plevel s s1 hok ht) h

theorem running_usage_of_clear (store : List Task) (r : ℕ) :
    ∀ cs : List Core, (∀ c ∈ cs, c.assigned = none) → running_usage store r cs = 0 := by
  intro cs
  induction cs with
  | nil => intro _; rfl
  | cons c cs ih =>
    intro hall
    show core_contrib store c r + running_usage store r cs = 0
    rw [ih fun c' hc' => hall c' (List.mem_cons_of_mem _ hc')]
    have hc : c.assigned = none := hall c (List.mem_cons_self _ _)
    unfold core_contrib
    rw [hc]
    by_cases hb : c.is_busy_waiting = true
    · rw [if_pos hb]
    · rw [if_neg hb]
      rfl

theorem resource_ok_of_clear (s : SimState) (h : ∀ c ∈ s.cores, c.assigned = none) :
    resource_ok s := by
  intro r _
  rw [running_usage_of_clear s.store r s.cores h]
  exact Nat.zero_le _

theorem assign_one_clear (nres : ℕ) (cores : List Core) (tid : ℕ) (t : Task)
    (cores1 : List Core) (h : assign_one nres cores tid t = some cores1)
    (hall : ∀ c ∈ cores, c.assigned = none) : ∀ c ∈ cores1, c.assigned = none := by
  simp only [assign_one] at h
  cases he : (sort_by (fun i j => decide (calculate_congestion nres (cores.getD j default_core) t ≤
      calculate_congestion nres (cores.getD i default_core) t)) (List.range cores.length)).filter
      (fun i => Frac.leb t.get_utilization
        ((cores.getD i default_core).utilization.sub (cores.getD i default_core).wfd)) with
  | nil =>
    rw [he] at h
    exact Option.noConfusion h
  | cons i idxs =>
    rw [he] at h
    simp only [List.head?_cons] at h
    cases hg : cores.get? i with
    | none =>
      rw [hg] at h
      exact Option.noConfusion h
    | some c =>
      rw [hg] at h
      simp only [Option.some.injEq] at h
      subst h
      intro c' hc'
      rcases List.mem_or_eq_of_mem_set hc' with hmem | heq
      · exact hall c' hmem
      · rw [heq]
        show c.assigned = none
        exact hall c (List.get?_mem hg)

theorem assign_fold_clear (nres : ℕ) (store : List Task) :
    ∀ (tids : List ℕ) (cores cores1 : List Core),
      assign_fold nres store tids cores = some cores1 →
      (∀ c ∈ cores, c.assigned = none) → ∀ c ∈ cores1, c.assigned = none := by
  intro tids
  induction tids with
  | nil =>
    intro cores cores1 h hall
    simp only [assign_fold, Option.some.injEq] at h
    rw [← h]
    exact hall
  | cons tid tids ih =>
    intro cores cores1 h hall
    unfold assign_fold at h
    cases hst : store.get? tid with
    | none =>
      simp only [hst] at h
      exact ih cores cores1 h hall
    | some t =>
      simp only [hst] at h
      cases ha : assign_one nres cores tid t with
      | none =>
        rw [ha] at h
        exact Option.noConfusion h
      | some cores2 =>
        rw [ha] at h
        exact ih cores2 cores1 h (assign_one_clear nres cores tid t cores2 ha hall)

theorem assign_to_core_clear (s s1 : SimState) (h : assign_to_core s = some s1)
    (hall : ∀ c ∈ s.cores, c.assigned = none) : ∀ c ∈ s1.cores, c.assigned = none := by
  unfold assign_to_core at h
  cases hf : assign_fold s.resources.length s.store
      (s.high_criticality_tasks ++ s.low_criticality_tasks) s.cores with
  | none =>
    rw [hf] at h
    exact Option.noConfusion h
  | some cs =>
    rw [hf] at h
    simp only [Option.map_some', Option.some.injEq] at h
    rw [← h]
    exact assign_fold_clear s.resources.length s.store _ s.cores cs hf hall

/-- C4: from any state whose dispatch table is empty (as the constructor
produces and as the one-time assignment preserves), every state reached by
the tick loop satisfies the invariant: for every resource, the sum of the
resource demands of all tasks actually running (dispatched on a core and not
busy-waiting) across all cores is at most that resource's capacity. -/
theorem c4_running_demand_bounded (plevel : PLevel) (s0 s1 s : SimState) (n : ℕ)
    (h0 : ∀ c ∈ s0.cores, c.assigned = none)
    (hassign : assign_to_core s0 = some s1 ∨ s1 = s0)
    (hrun : iterate_ticks plevel n s1 = .ok s) :
    resource_ok s := by
  have h1 : ∀ c ∈ s1.cores, c.assigned = none := by
    rcases hassign with ha | ha
    · exact assign_to_core_clear s0 s1 ha h0
    · rw [ha]
      exact h0
  exact iterate_resource_ok plevel n s1 s (resource_ok_of_clear s1 h1) hrun

/-- The state reached after two ticks of the contended two-core scenario. -/
def c4_final : SimState :=
  (iterate_ticks spec_preemption_level 2 c5_state_ab).toOption.getD c5_state_ab

/-- Witness for C4: the contended two-core scenario starts with an empty
dispatch table and, two ticks in, still satisfies the running-demand bound. -/
theorem c4_running_demand_bounded_witness :
    (∀ c ∈ c5_state_ab.cores, c.assigned = none) ∧ resource_ok c4_final :=
  ⟨by decide,
   c4_running_demand_bounded spec_preemption_level c5_state_ab c5_state_ab c4_final 2
     (by decide) (Or.inr rfl) rfl⟩

/-! C1. -/

theorem handle_done_fold_clear (m : Mode) (now : ℕ) (store : List Task) :
    ∀ cs : List Core, (∀ c ∈ cs, c.assigned = none) →
      handle_done_fold m now store cs = .ok (store, cs) := by
  intro cs
  induction cs with
  | nil => intro _; rfl
  | cons c cs ih =>
    intro hall
    have hc : c.assigned = none := hall c (List.mem_cons_self _ _)
    have hstep : handle_done_step m now store c = .ok (store, c) := by
      unfold handle_done_step
      rw [hc]
    unfold handle_done_fold
    simp only [hstep, ih fun c' hc' => hall c' (List.mem_cons_of_mem _ hc')]

theorem handle_done_tasks_clear (s : SimState) (h : ∀ c ∈ s.cores, c.assigned = none) :
    handle_done_tasks s = .ok s := by
  unfold handle_done_tasks
  rw [handle_done_fold_clear s.mode s.current_time s.store s.cores h]

theorem tick_of_clear (plevel : PLevel) (s : SimState)
    (h : ∀ c ∈ s.cores, c.assigned = none) :
    ∃ s', tick plevel s = .ok s' := by
  have hhd : handle_done_tasks (update_mode (update_system_ceiling plevel s)) =
      .ok (update_mode (update_system_ceiling plevel s)) :=
    handle_done_tasks_clear _ h
  refine ⟨{ advance_forward_tasks (update_busy_waiting_cores (scheduled_tasks plevel
      (disable_low_critical_tasks_in_overrun (update_mode (update_system_ceiling plevel s))))) with
    current_time := (advance_forward_tasks (update_busy_waiting_cores (scheduled_tasks plevel
      (disable_low_critical_tasks_in_overrun
        (update_mode (update_system_ceiling plevel s)))))).current_time + 1 }, ?_⟩
  simp only [tick, hhd]

theorem handle_done_time (s s' : SimState) (h : handle_done_tasks s = .ok s') :
    s'.current_time = s.current_time := by
  unfold handle_done_tasks at h
  cases hf : handle_done_fold s.mode s.current_time s.store s.cores with
  | error e =>
    rw [hf] at h
    exact Except.noConfusion h
  | ok p =>
    obtain ⟨store1, cores1⟩ := p
    simp only [hf, Except.ok.injEq] at h
    rw [← h]

theorem tick_time (plevel : PLevel) (s s' : SimState) (h : tick plevel s = .ok s') :
    s'.current_time = s.current_time + 1 := by
  simp only [tick] at h
  cases hh : handle_done_tasks (update_mode (update_system_ceiling plevel s)) with
  | error e =>
    rw [hh] at h
    exact Except.noConfusion h
  | ok s3 =>
    rw [hh] at h
    simp only [Except.ok.injEq] at h
    have hd : (disable_low_critical_tasks_in_overrun s3).current_time = s3.current_time := by
      unfold disable_low_critical_tasks_in_overrun
      cases s3.mode <;> rfl
    have h3t : s3.current_time = s.current_time :=
      handle_done_time (update_mode (update_system_ceiling plevel s)) s3 hh
    rw [← h]
    show (disable_low_critical_tasks_in_overrun s3).current_time + 1 = s.current_time + 1
    rw [hd, h3t]

theorem run_loop_panic_time (plevel : PLevel) :
    ∀ (fuel : ℕ) (s : SimState) (usage u t : ℕ),
      run_loop plevel fuel s usage = .panic u t → s.current_time ≤ t := by
  intro fuel
  induction fuel with
  | zero =>
    intro s usage u t h
    simp only [run_loop] at h
    exact RunOutcome.noConfusion h
  | succ fuel ih =>
    intro s usage u t h
    simp only [run_loop] at h
    by_cases hlt : s.current_time < 100000
    · rw [if_pos hlt] at h
      cases htk : tick plevel s with
      | error e =>
        simp only [htk] at h
        rw [RunOutcome.panic.injEq] at h
        omega
      | ok s2 =>
        simp only [htk] at h
        have h2 := ih s2 _ u t h
        have h3 := tick_time plevel s s2 htk
        omega
    · rw [if_neg hlt] at h
      exact RunOutcome.noConfusion h

theorem run_loop_panic_pos (plevel : PLevel) :
    ∀ (fuel : ℕ) (s : SimState) (usage u t : ℕ),
      (∀ c ∈ s.cores, c.assigned = none) →
      run_loop plevel fuel s usage = .panic u t → s.current_time + 1 ≤ t := by
  intro fuel
  cases fuel with
  | zero =>
    intro s usage u t _ h
    simp only [run_loop] at h
    exact RunOutcome.noConfusion h
  | succ fuel =>
    intro s usage u t hclear h
    simp only [run_loop] at h
    by_cases hlt : s.current_time < 100000
    · rw [if_pos hlt] at h
      obtain ⟨s2, hs2⟩ := tick_of_clear plevel s hclear
      rw [hs2] at h
      have h2 := run_loop_panic_time plevel fuel s2 _ u t h
      have h3 := tick_time plevel s s2 hs2
      omega
    · rw [if_neg hlt] at h
      exact RunOutcome.noConfusion h

theorem assign_to_core_fields (s s1 : SimState) (h : assign_to_core s = some s1) :
    s1.current_time = s.current_time ∧ s1.cpu_count = s.cpu_count := by
  unfold assign_to_core at h
  cases hf : assign_fold s.resources.length s.store
      (s.high_criticality_tasks ++ s.low_criticality_tasks) s.cores with
  | none =>
    rw [hf] at h
    exact Option.noConfusion h
  | some cs =>
    rw [hf] at h
    simp only [Option.map_some', Option.some.injEq] at h
    rw [← h]
    exact ⟨rfl, rfl⟩

/-- C1: for every run in which a dispatched high-criticality task misses its
deadline under the current mode — i.e. the tick loop raises
PanicModeException after t completed ticks — the simulation terminates
immediately and the run returns the explicit failure pair: failed = true,
with utilization usage/(t * cpu_count) computed over only the t elapsed
ticks; the division is well defined (t ≥ 1, so no ZeroDivisionError) and the
miss never escapes the run as an uncaught fault.  PanicModeException
(models/exceptions.py, not under src/) is modelled from the spec as caught by
the run's except clause. -/
theorem c1_high_miss_reports_failure (plevel : PLevel) (s0 s1 : SimState) (usage t : ℕ)
    (h0 : ∀ c ∈ s0.cores, c.assigned = none)
    (ht0 : s0.current_time = 0)
    (hm : 0 < s0.cpu_count)
    (hassign : assign_to_core s0 = some s1)
    (hrun : run_loop plevel 100000 s1 0 = .panic usage t) :
    1 ≤ t ∧
      execute plevel s0 =
        some (⟨(usage : ℤ), ((t * s0.cpu_count : ℕ) : ℤ)⟩, true) := by
  have h1 : ∀ c ∈ s1.cores, c.assigned = none := assign_to_core_clear s0 s1 hassign h0
  obtain ⟨ht1, _⟩ := assign_to_core_fields s0 s1 hassign
  have hpos := run_loop_panic_pos plevel 100000 s1 0 usage t h1 hrun
  have ht : 1 ≤ t := by omega
  refine ⟨ht, ?_⟩
  have hne : ¬(t * s0.cpu_count = 0) := by
    have := Nat.mul_pos (lt_of_lt_of_le Nat.zero_lt_one ht) hm
    omega
  simp only [execute, hassign, hrun]
  rw [if_neg hne]

/-- A high-criticality task that cannot finish its first job before its
deadline: period 1, little = big = 2. -/
def c1_task : Task :=
  { period := 1, utilization := ⟨1, 2⟩, resource_demands := fun _ => 0,
    current_job := 0, progress := 0, kind := .high 2 2 0 }

/-- An all-fields-trivial state, used only as an Option fallback. -/
def empty_state : SimState :=
  { mode := .NORMAL, store := [], high_criticality_tasks := [],
    low_criticality_tasks := [], resources := [], cores := [],
    current_time := 0, cpu_count := 0, edf_vd_x := ⟨0, 1⟩, srp_table := [],
    system_ceiling := none }

/-- The constructed simulator for the doomed one-task scenario. -/
def c1_initial : SimState :=
  (mk_simulator [c1_task] [] [] [unit_core]).toOption.getD empty_state

/-- The same simulator after one-time core assignment. -/
def c1_assigned : SimState := (assign_to_core c1_initial).getD c1_initial

/-- Witness for C1: the doomed task is dispatched at tick 0 and misses its
deadline at tick 1, so the run returns utilization 1/(1*1) with
failed = true. -/
theorem c1_high_miss_reports_failure_witness :
    1 ≤ 1 ∧
      execute spec_preemption_level c1_initial =
        some (⟨((1 : ℕ) : ℤ), ((1 * c1_initial.cpu_count : ℕ) : ℤ)⟩, true) :=
  c1_high_miss_reports_failure spec_preemption_level c1_initial c1_assigned 1 1
    (by decide) rfl (by decide) rfl rfl

end MCS
